import Mathlib

/-!
Shallow embedding of the DefectPro inspection-report layout engine
(`src/script.js`, `generatePdfBtn` click handler and its helper functions),
together with theorems settling the frozen claims about it.

The engine drives a jsPDF document object.  We model the document as the
ordered sequence of draw operations it receives (`Emit` trace).  jsPDF itself
(text measurement `splitTextToSize`, date formatting, the wall clock read by
`new Date()`) is external to the repository and is passed in as an `Env` of
oracle functions; image decoding (`new Image()` intrinsic dimensions) is
carried on each `DefectRecord` as an optional dimension pair.  Geometry is
exact rational arithmetic, as all quantities in the source are millimetre
values combined by `+`, `*`, `min` and comparisons.
-/

namespace DefectPro

/-- RGB triple as handed to the jsPDF color setters. -/
abbrev Color := Nat × Nat × Nat

/-- Horizontal alignment option of a jsPDF `doc.text` call (the source uses
only the default left alignment and `align: 'center'`). -/
inductive Align where
  | left
  | center
deriving DecidableEq, Repr

/-- One jsPDF draw operation, carrying the style state that was active when
the source issued it (font size, weight, text color for text; fill color for
rectangles; draw color and line width for lines). -/
inductive Op where
  | text (str : String) (x y : ℚ) (fontSize : ℚ) (bold : Bool) (color : Color) (align : Align)
  | rect (x y w h : ℚ) (fill : Color)
  | line (x1 y1 x2 y2 : ℚ) (draw : Color) (width : ℚ)
  | image (fmt : String) (x y w h : ℚ)
deriving DecidableEq, Repr

/-- Page width in mm: `const pageWidth = 210`. -/
def pageWidth : ℚ := 210

/-- Page height in mm: `const pageHeight = 297`. -/
def pageHeight : ℚ := 297

/-- Margin in mm: `const margin = 20`. -/
def margin : ℚ := 20

/-- Content width: `const contentWidth = pageWidth - (margin * 2)`. -/
def contentWidth : ℚ := pageWidth - margin * 2

/-- One emitted draw operation together with the page it was appended to, the
cursor position `yPos` at the moment of emission, and the page count at that
moment.  The last two fields record no extra behaviour; they exist so that
pagination invariants about the run can be stated on the trace. -/
structure Emit where
  op : Op
  page : Nat
  yAt : ℚ
  pagesAt : Nat
deriving DecidableEq, Repr

/-- The mutable state of one generation run: the jsPDF document (page count
and currently selected page, with the pages' contents recoverable from the
trace via `pageOps`), the source's `yPos` cursor, and the sticky jsPDF style
state set by `setFontSize` / `setFont` / `setTextColor` / `setFillColor` /
`setDrawColor` / `setLineWidth`. -/
structure DocState where
  pageCount : Nat
  current : Nat
  yPos : ℚ
  fontSize : ℚ
  bold : Bool
  textColor : Color
  fillColor : Color
  drawColor : Color
  lineWidth : ℚ
  trace : List Emit
deriving DecidableEq, Repr

/-- Append one draw operation to the currently selected page. -/
def emit (op : Op) (s : DocState) : DocState :=
  { s with trace := s.trace ++ [⟨op, s.current, s.yPos, s.pageCount⟩] }

/-- The ordered draw operations of page `i` (1-based), i.e. the operations
that were appended while page `i` was selected, in emission order. -/
def pageOps (s : DocState) (i : Nat) : List Op :=
  (s.trace.filter (fun e => e.page == i)).map (fun e => e.op)

/-- jsPDF `doc.addPage()`: appends a fresh page and selects it. -/
def addPage (s : DocState) : DocState :=
  { s with pageCount := s.pageCount + 1, current := s.pageCount + 1 }

/-- jsPDF `doc.setPage(i)`. -/
def setPage (i : Nat) (s : DocState) : DocState := { s with current := i }

/-- jsPDF `doc.setFontSize(n)`. -/
def setFontSize (n : ℚ) (s : DocState) : DocState := { s with fontSize := n }

/-- jsPDF `doc.setFont('helvetica', b ? 'bold' : 'normal')`. -/
def setFontBold (b : Bool) (s : DocState) : DocState := { s with bold := b }

/-- jsPDF `doc.setTextColor(r, g, b)`. -/
def setTextColor (c : Color) (s : DocState) : DocState := { s with textColor := c }

/-- jsPDF `doc.setFillColor(r, g, b)`. -/
def setFillColor (c : Color) (s : DocState) : DocState := { s with fillColor := c }

/-- jsPDF `doc.setDrawColor(r, g, b)`. -/
def setDrawColor (c : Color) (s : DocState) : DocState := { s with drawColor := c }

/-- jsPDF `doc.setLineWidth(w)`. -/
def setLineWidth (w : ℚ) (s : DocState) : DocState := { s with lineWidth := w }

/-- jsPDF `doc.text(str, x, y)` or `doc.text(str, x, y, { align: 'center' })`,
drawn with the sticky style state. -/
def drawText (str : String) (x y : ℚ) (al : Align) (s : DocState) : DocState :=
  emit (Op.text str x y s.fontSize s.bold s.textColor al) s

/-- jsPDF `doc.rect(x, y, w, h, 'F')` with the current fill color. -/
def drawRect (x y w h : ℚ) (s : DocState) : DocState :=
  emit (Op.rect x y w h s.fillColor) s

/-- jsPDF `doc.line(x1, y1, x2, y2)` with the current draw color and width. -/
def drawLine (x1 y1 x2 y2 : ℚ) (s : DocState) : DocState :=
  emit (Op.line x1 y1 x2 y2 s.drawColor s.lineWidth) s

/-- jsPDF `doc.addImage(data, fmt, x, y, w, h)` (the pixel payload itself is
not part of the layout model). -/
def drawImage (fmt : String) (x y w h : ℚ) (s : DocState) : DocState :=
  emit (Op.image fmt x y w h) s

/-- External collaborators of the layout engine: jsPDF text measurement
(`doc.splitTextToSize`), the `toLocaleDateString` formatting of the
inspection date, the wall clock string read by `new Date().toLocaleString()`
at the n-th read performed by the footer loop, and the `toISOString` date
used for the file name. -/
structure Env where
  split : String → ℚ → List String
  formatDate : String → String
  footClock : Nat → String
  todayISO : String

/-- The report metadata read by `getFieldValue` at generation time.  Each
field holds the already-trimmed form value; an absent field is the empty
string (`getFieldValue` returns `''` for a missing element and trims
otherwise). -/
structure ReportMetadata where
  companyName : String
  companyPhone : String
  companyEmail : String
  reportTitle : String
  clientName : String
  clientAddress : String
  inspectionDate : String
  inspectorName : String
  inspectorCredentials : String
  attendance : String
  occupancy : String
  buildingType : String
  weatherCondition : String
  disclaimer : String
deriving DecidableEq, Repr

/-- One entry of the `defects` array.  `dims` is the intrinsic pixel size the
browser reports for `imageData` once the `Image` decode resolves; `none`
models a payload that fails to decode.  In that case the source's `onerror`
handler resolves the await with `img.width = img.height = 0`, the computed
scaled dimensions are `NaN`, the `NaN` page-fit comparison is false (so no
state changes), and `doc.addImage` then throws on the undecodable payload,
landing in the `catch (imgError)` branch - which is what the `none` branch of
`defectImage` below embeds. -/
structure DefectRecord where
  id : Nat
  defectType : String
  imageData : String
  imageName : String
  description : String
  dims : Option (ℚ × ℚ)
deriving DecidableEq, Repr

/-- A defect record whose decodable image reports nonnegative intrinsic
dimensions (any record whose payload fails to decode also qualifies). -/
def dimsOK (d : DefectRecord) : Bool :=
  match d.dims with
  | none => true
  | some (w, h) => decide (0 ≤ w) && decide (0 ≤ h)

/-- `checkNewPage(requiredSpace)` from the source:
if `yPos + requiredSpace > pageHeight - margin`, add a page, reset
`yPos = margin` and return true, else return false. -/
def checkNewPage (requiredSpace : ℚ) (s : DocState) : Bool × DocState :=
  if s.yPos + requiredSpace > pageHeight - margin then
    (true, { addPage s with yPos := margin })
  else
    (false, s)

/-- `addLine()` from the source: grey rule across the content width, then
`yPos += 5`. -/
def addLine (s : DocState) : DocState :=
  let s := setDrawColor (200, 200, 200) s
  let s := setLineWidth ((1 : ℚ) / 2) s
  let s := drawLine margin s.yPos (pageWidth - margin) s.yPos s
  { s with yPos := s.yPos + 5 }

/-- The shared shape of the source's per-line write loops
(`lines.forEach(line => { checkNewPage(req); doc.text(line, margin, yPos);
yPos += adv; })`): `addText` instantiates `req = lineHeight + 2`,
`adv = lineHeight`; the disclaimer loop `req = 5`, `adv = 4.5`; the defect
description loop `req = 6`, `adv = 5`. -/
def writeLines (req adv : ℚ) (lines : List String) (s : DocState) : DocState :=
  lines.foldl (fun s line =>
    let s := (checkNewPage req s).2
    let s := drawText line margin s.yPos Align.left s
    { s with yPos := s.yPos + adv }) s

/-- `addText(text, fontSize, isBold)` from the source. -/
def addText (env : Env) (content : String) (fontSize : ℚ) (isBold : Bool) (s : DocState) : DocState :=
  let s := setFontSize fontSize s
  let s := setFontBold isBold s
  let lines := env.split content contentWidth
  let lineHeight := fontSize * ((1 : ℚ) / 2)
  let s := writeLines (lineHeight + 2) lineHeight lines s
  { s with yPos := s.yPos + 2 }

/-- Modelled from the spec: the writes `addText` would perform were the page
height unbounded, i.e. the same wrap with the page-break check never firing.
This is the comparison point of the no-content-loss-on-break property (C9);
it is not part of the source. -/
def addTextUnbounded (env : Env) (content : String) (fontSize : ℚ) (isBold : Bool)
    (s : DocState) : DocState :=
  let s := setFontSize fontSize s
  let s := setFontBold isBold s
  let lines := env.split content contentWidth
  let lineHeight := fontSize * ((1 : ℚ) / 2)
  let s := lines.foldl (fun s line =>
    let s := drawText line margin s.yPos Align.left s
    { s with yPos := s.yPos + lineHeight }) s
  { s with yPos := s.yPos + 2 }

/-- `addSectionHeader(title)` from the source. -/
def addSectionHeader (title : String) (s : DocState) : DocState :=
  let s := (checkNewPage 20 s).2
  let s := { s with yPos := s.yPos + 5 }
  let s := setFillColor (240, 240, 240) s
  let s := drawRect margin (s.yPos - 5) contentWidth 10 s
  let s := setFontSize 12 s
  let s := setFontBold true s
  let s := setTextColor (30, 30, 30) s
  let s := drawText title (margin + 3) (s.yPos + 2) Align.left s
  let s := { s with yPos := s.yPos + 12 }
  setTextColor (0, 0, 0) s

/-- JavaScript `a || b` on the already-trimmed field strings: the empty
string is falsy. -/
def strOr (a b : String) : String := if a = "" then b else a

/-- The DOCUMENT HEADER part of the click handler: defaulted company name and
report title, optional contact line, horizontal rule. -/
def headerBlock (m : ReportMetadata) (s : DocState) : DocState :=
  let companyName := strOr m.companyName "Inspection Company"
  let reportTitle := strOr m.reportTitle "Home Defect Inspection Report"
  let s := setFontSize 20 s
  let s := setFontBold true s
  let s := drawText companyName (pageWidth / 2) s.yPos Align.center s
  let s := { s with yPos := s.yPos + 10 }
  let s := setFontSize 10 s
  let s := setFontBold false s
  let contactInfo := (if m.companyPhone = "" then [] else [m.companyPhone]) ++
      (if m.companyEmail = "" then [] else [m.companyEmail])
  let s :=
    if 0 < contactInfo.length then
      let s := drawText (String.intercalate " | " contactInfo) (pageWidth / 2) s.yPos Align.center s
      { s with yPos := s.yPos + 8 }
    else s
  let s := setFontSize 16 s
  let s := setFontBold true s
  let s := drawText reportTitle (pageWidth / 2) (s.yPos + 5) Align.center s
  let s := { s with yPos := s.yPos + 15 }
  addLine s

/-- A `doc.text(lines, x, y)` call given an array of wrapped lines: jsPDF
draws each line below the previous one; the cursor is not moved (the caller
advances `yPos` afterwards).  The internal leading jsPDF applies between the
array's lines is abstracted as the 5-unit step the source itself uses when
advancing past these blocks. -/
def textMulti (lines : List String) (x y : ℚ) (s : DocState) : DocState :=
  match lines with
  | [] => s
  | l :: ls => textMulti ls x (y + 5) (drawText l x y Align.left s)

/-- One single-line label/value pair of the CLIENT & PROPERTY DETAILS
section: bold label at `margin`, plain value at `margin + 35`, `yPos += 6`. -/
def detailPair (lbl value : String) (s : DocState) : DocState :=
  let s := setFontBold true s
  let s := drawText lbl margin s.yPos Align.left s
  let s := setFontBold false s
  let s := drawText value (margin + 35) s.yPos Align.left s
  { s with yPos := s.yPos + 6 }

/-- One wrapped label/value pair of the CLIENT & PROPERTY DETAILS section
(address, credentials): bold label at `margin`, the pre-wrapped lines drawn
as one array call at `margin + 35`, `yPos += lines.length * 5 + 2`. -/
def detailMulti (lbl : String) (lines : List String) (s : DocState) : DocState :=
  let s := setFontBold true s
  let s := drawText lbl margin s.yPos Align.left s
  let s := setFontBold false s
  let s := textMulti lines (margin + 35) s.yPos s
  { s with yPos := s.yPos + (lines.length : ℚ) * 5 + 2 }

/-- The CLIENT & PROPERTY DETAILS section of the click handler: label/value
pairs, each emitted only when the value is non-empty; address and credentials
are wrapped to `contentWidth - 40` and advance by `lines * 5 + 2`; the
inspection date is reformatted via `toLocaleDateString`.  None of these
writes is guarded by `checkNewPage`. -/
def detailsBlock (env : Env) (m : ReportMetadata) (s : DocState) : DocState :=
  let s := addSectionHeader "Property & Client Details" s
  let s := setFontSize 10 s
  let s := if m.clientName = "" then s else detailPair "Client Name:" m.clientName s
  let s :=
    if m.clientAddress = "" then s else
      detailMulti "Property Address:" (env.split m.clientAddress (contentWidth - 40)) s
  let s :=
    if m.inspectionDate = "" then s else
      detailPair "Inspection Date:" (env.formatDate m.inspectionDate) s
  let s := if m.inspectorName = "" then s else detailPair "Inspector:" m.inspectorName s
  let s :=
    if m.inspectorCredentials = "" then s else
      detailMulti "Credentials:" (env.split m.inspectorCredentials (contentWidth - 40)) s
  { s with yPos := s.yPos + 5 }

/-- The `tableData` array of the INSPECTION DETAILS TABLE: missing values
render as `'N/A'`. -/
def tableData (m : ReportMetadata) : List (String × String) :=
  [("Attendance", strOr m.attendance "N/A"),
   ("Occupancy", strOr m.occupancy "N/A"),
   ("Type of Building", strOr m.buildingType "N/A"),
   ("Weather Condition", strOr m.weatherCondition "N/A")]

/-- `const colWidth = contentWidth / 2`. -/
def colWidth : ℚ := contentWidth / 2

/-- One iteration of the `tableData.forEach` loop; `shaded` is the
`index % 2 === 0` alternate-row test. -/
def tableRow (shaded : Bool) (row : String × String) (s : DocState) : DocState :=
  let s := (checkNewPage 8 s).2
  let s :=
    if shaded then
      let s := setFillColor (248, 248, 248) s
      drawRect margin (s.yPos - 4) contentWidth 8 s
    else s
  let s := setFontBold true s
  let s := drawText row.1 (margin + 2) s.yPos Align.left s
  let s := setFontBold false s
  let s := drawText row.2 (margin + colWidth) s.yPos Align.left s
  { s with yPos := s.yPos + 8 }

/-- The `tableData.forEach((row, index) => ...)` loop. -/
def tableRows (rows : List (String × String)) (idx : Nat) (s : DocState) : DocState :=
  match rows with
  | [] => s
  | row :: rest => tableRows rest (idx + 1) (tableRow (idx % 2 == 0) row s)

/-- The INSPECTION DETAILS TABLE section of the click handler. -/
def tableBlock (m : ReportMetadata) (s : DocState) : DocState :=
  let s := addSectionHeader "Inspection Details" s
  let s := setFontSize 10 s
  let s := tableRows (tableData m) 0 s
  { s with yPos := s.yPos + 5 }

/-- The DISCLAIMER SECTION of the click handler: header always shown, muted
wrapped body only when the disclaimer is non-empty. -/
def disclaimerBlock (env : Env) (m : ReportMetadata) (s : DocState) : DocState :=
  let s := addSectionHeader "General Disclaimer" s
  let s :=
    if m.disclaimer = "" then s else
      let s := setFontSize 9 s
      let s := setFontBold false s
      let s := setTextColor (80, 80, 80) s
      let s := writeLines 5 ((9 : ℚ) / 2) (env.split m.disclaimer contentWidth) s
      setTextColor (0, 0, 0) s
  { s with yPos := s.yPos + 5 }

/-- `ratio = Math.min(maxImgWidth / imgWidth, maxImgHeight / imgHeight)` from
the image-scaling code of the defect loop. -/
def imgScaleFactor (maxImgWidth maxImgHeight imgWidth imgHeight : ℚ) : ℚ :=
  min (maxImgWidth / imgWidth) (maxImgHeight / imgHeight)

/-- The defect heading write (`Defect #i+1: type`, optionally with the
`' (continued)'` suffix after a forced page break), colored (44, 82, 130),
followed by `yPos += 8`. -/
def defectHeader (i : Nat) (defectType : String) (suffix : String) (s : DocState) : DocState :=
  let s := setFontSize 11 s
  let s := setFontBold true s
  let s := setTextColor (44, 82, 130) s
  let s := drawText ("Defect #" ++ toString (i + 1) ++ ": " ++ defectType ++ suffix)
      margin s.yPos Align.left s
  let s := setTextColor (0, 0, 0) s
  { s with yPos := s.yPos + 8 }

/-- The `try { ... } catch (imgError) { ... }` image block of the defect
loop.  On a decodable image: scale to fit `contentWidth x 80`, force a page
break (reprinting the heading with `' (continued)'`) when
`yPos + imgHeight + 20 > pageHeight - margin`, draw the image with the
literal `'JPEG'` format tag, advance by `imgHeight + 5`.  On a payload that
fails to decode: the catch branch - error notice in color (150, 0, 0) and a
fixed `yPos += 8` (see the `DefectRecord.dims` doc comment). -/
def defectImage (i : Nat) (d : DefectRecord) (s : DocState) : DocState :=
  match d.dims with
  | some (w, h) =>
      let r := imgScaleFactor contentWidth 80 w h
      let imgWidth := w * r
      let imgHeight := h * r
      let s :=
        if s.yPos + imgHeight + 20 > pageHeight - margin then
          let s := addPage s
          let s := { s with yPos := margin }
          defectHeader i d.defectType " (continued)" s
        else s
      let s := drawImage "JPEG" margin s.yPos imgWidth imgHeight s
      { s with yPos := s.yPos + imgHeight + 5 }
  | none =>
      let s := setFontSize 10 s
      let s := setTextColor (150, 0, 0) s
      let s := drawText "[Image could not be loaded]" margin s.yPos Align.left s
      let s := setTextColor (0, 0, 0) s
      { s with yPos := s.yPos + 8 }

/-- The thin separator rule drawn between consecutive defects:
`checkNewPage(15)`, grey thin line across the content width, `yPos += 10`. -/
def defectSep (s : DocState) : DocState :=
  let s := (checkNewPage 15 s).2
  let s := setDrawColor (220, 220, 220) s
  let s := setLineWidth ((3 : ℚ) / 10) s
  let s := drawLine margin s.yPos (pageWidth - margin) s.yPos s
  { s with yPos := s.yPos + 10 }

/-- One iteration of the defect `for` loop: page check for the block, defect
heading, image (or error notice), wrapped description, trailing space, and a
separator rule between consecutive defects (never after the last). -/
def processDefect (env : Env) (total i : Nat) (d : DefectRecord) (s : DocState) : DocState :=
  let s := (checkNewPage 100 s).2
  let s := defectHeader i d.defectType "" s
  let s := defectImage i d s
  let s := setFontSize 10 s
  let s := setFontBold false s
  let s := writeLines 6 5 (env.split d.description contentWidth) s
  let s := { s with yPos := s.yPos + 10 }
  if i < total - 1 then defectSep s else s

/-- The defect `for (let i = 0; i < defects.length; i++)` loop. -/
def defectsGo (env : Env) (total : Nat) : Nat → List DefectRecord → DocState → DocState
  | _, [], s => s
  | i, d :: ds, s => defectsGo env total (i + 1) ds (processDefect env total i d s)

/-- The DEFECTS SECTION of the click handler: only emitted when the defect
list is non-empty, and then always started on a freshly added page. -/
def defectsSection (env : Env) (defects : List DefectRecord) (s : DocState) : DocState :=
  if 0 < defects.length then
    let s := addPage s
    let s := { s with yPos := margin }
    let s := addSectionHeader ("Identified Defects (" ++ toString defects.length ++ " Total)") s
    defectsGo env defects.length 0 defects s
  else s

/-- The page-number footer string `Page i of N`. -/
def pageStampStr (i n : Nat) : String :=
  "Page " ++ toString i ++ " of " ++ toString n

/-- One iteration of the FOOTER ON ALL PAGES loop: select page `i`, stamp the
centered page number at `pageHeight - 10` and the centered generation
timestamp at `pageHeight - 6`.  The source reads
`new Date().toLocaleString()` inside this loop body, so the iteration for
page `i` performs the `i - 1`-th clock read. -/
def stampOnePage (env : Env) (total i : Nat) (s : DocState) : DocState :=
  let s := setPage i s
  let s := setFontSize 8 s
  let s := setFontBold false s
  let s := setTextColor (150, 150, 150) s
  let s := drawText (pageStampStr i total) (pageWidth / 2) (pageHeight - 10) Align.center s
  let timestamp := env.footClock (i - 1)
  drawText ("Report generated: " ++ timestamp) (pageWidth / 2) (pageHeight - 6) Align.center s

/-- The two footer emits the iteration for page `i` appends: the page-number
stamp and the timestamp, both centered, tagged with page `i`, at the cursor
position and page count the footer loop runs with (neither changes during the
loop). -/
def footPair (env : Env) (total i : Nat) (y : ℚ) (pc : Nat) : List Emit :=
  [⟨Op.text (pageStampStr i total) (pageWidth / 2) (pageHeight - 10) 8 false (150, 150, 150)
      Align.center, i, y, pc⟩,
   ⟨Op.text ("Report generated: " ++ env.footClock (i - 1)) (pageWidth / 2) (pageHeight - 6) 8
      false (150, 150, 150) Align.center, i, y, pc⟩]

/-- The FOOTER ON ALL PAGES loop:
`for (let i = 1; i <= totalPages; i++) { ... }`. -/
def stampFooters (env : Env) (s : DocState) : DocState :=
  let totalPages := s.pageCount
  (List.range totalPages).foldl (fun s j => stampOnePage env totalPages (j + 1) s) s

/-- The fresh jsPDF document: one empty page, cursor at the margin, default
style state (never observed before the source sets it). -/
def initState : DocState :=
  { pageCount := 1, current := 1, yPos := margin, fontSize := 16, bold := false,
    textColor := (0, 0, 0), fillColor := (0, 0, 0), drawColor := (0, 0, 0),
    lineWidth := 1 / 5, trace := [] }

/-- The document state after the four non-defect sections have been
composed. -/
def bodyState (env : Env) (m : ReportMetadata) : DocState :=
  disclaimerBlock env m (tableBlock m (detailsBlock env m (headerBlock m initState)))

/-- One full generation run of the click handler, up to and including the
footer loop (the subsequent `doc.save` hands the document to the download
collaborator). -/
def generate (env : Env) (m : ReportMetadata) (defects : List DefectRecord) : DocState :=
  stampFooters env (defectsSection env defects (bodyState env m))

/-- The derived file name `Inspection_Report_<YYYY-MM-DD>.pdf`. -/
def reportFilename (env : Env) : String :=
  "Inspection_Report_" ++ env.todayISO ++ ".pdf"

/-- Recognizes a draw op at the page-number footer position: centered text at
`pageHeight - 10`.  No other call site in the source draws centered text at
that height. -/
def isPageNumPos (op : Op) : Bool :=
  match op with
  | Op.text _ _ y _ _ _ al => decide (al = Align.center) && decide (y = pageHeight - 10)
  | _ => false

/-- Recognizes a draw op at the timestamp footer position: centered text at
`pageHeight - 6`. -/
def isTsPos (op : Op) : Bool :=
  match op with
  | Op.text _ _ y _ _ _ al => decide (al = Align.center) && decide (y = pageHeight - 6)
  | _ => false

/-- The string of a text op. -/
def opStr (op : Op) : Option String :=
  match op with
  | Op.text str _ _ _ _ _ _ => some str
  | _ => none

/-- The x position of a text op. -/
def opX (op : Op) : Option ℚ :=
  match op with
  | Op.text _ x _ _ _ _ _ => some x
  | _ => none

/-- Recognizes the label write of a Property & Client Details pair: the given
label text drawn at `x = margin` (values are drawn at `margin + 35`). -/
def isLabelOp (lbl : String) (op : Op) : Bool :=
  match op with
  | Op.text str x _ _ _ _ _ => decide (str = lbl) && decide (x = margin)
  | _ => false

/-- The emits a function appends to the trace of `s` (every engine function
only ever appends to the trace). -/
def newTrace (f : DocState → DocState) (s : DocState) : List Emit :=
  ((f s).trace).drop s.trace.length

/-- A concrete environment for witnesses: measurement never wraps, and the
two footer clock reads fall on different sides of a second boundary. -/
def env0 : Env :=
  { split := fun str _ => [str]
    formatDate := fun str => str
    footClock := fun n => if n = 0 then "4/1/2024, 10:15:59 AM" else "4/1/2024, 10:16:00 AM"
    todayISO := "2024-04-01" }

/-- A concrete environment whose measurement wraps the address value "ADDR"
into 50 lines, as `splitTextToSize` does for a sufficiently long address. -/
def env5 : Env :=
  { split := fun str _ => if str = "ADDR" then List.replicate 50 "line of the address" else [str]
    formatDate := fun str => str
    footClock := fun _ => "4/1/2024, 10:15:59 AM"
    todayISO := "2024-04-01" }

/-- Metadata with every field absent. -/
def emptyMeta : ReportMetadata :=
  { companyName := "", companyPhone := "", companyEmail := "", reportTitle := ""
    clientName := "", clientAddress := "", inspectionDate := "", inspectorName := ""
    inspectorCredentials := "", attendance := "", occupancy := "", buildingType := ""
    weatherCondition := "", disclaimer := "" }

/-- Metadata with a long multi-line address and an inspection date, used by
the C5 counterexample. -/
def meta5 : ReportMetadata :=
  { emptyMeta with clientAddress := "ADDR", inspectionDate := "2024-01-01" }

/-- A defect whose image decodes to 100 x 50 pixels. -/
def goodDefect : DefectRecord :=
  { id := 1, defectType := "Crack", imageData := "data:image/jpeg;base64,AAAA"
    imageName := "crack.jpg", description := "A crack in the wall.", dims := some (100, 50) }

/-- A defect whose image payload cannot be decoded. -/
def badDefect : DefectRecord :=
  { id := 2, defectType := "Leak", imageData := "data:image/jpeg;base64,????"
    imageName := "leak.jpg", description := "A leak under the sink.", dims := none }

/-! ## Run invariant and trace plumbing -/

/-- The cursor range the spec asserts for writes:
`margin ≤ yAt ≤ pageHeight - margin`. -/
def inRange (e : Emit) : Prop :=
  margin ≤ e.yAt ∧ e.yAt ≤ pageHeight - margin

/-- What is true of every entry the composition phase appends to the trace:
its page and recorded page count never exceed the current page count, it is
not at a footer stamp position, and if it is an image it carries the literal
`'JPEG'` tag. -/
def entryOK (n : Nat) (e : Emit) : Prop :=
  e.page ≤ n ∧ e.pagesAt ≤ n ∧ isPageNumPos e.op = false ∧ isTsPos e.op = false ∧
    ∀ fmt x y w h, e.op = Op.image fmt x y w h → fmt = "JPEG"

/-- The run invariant maintained by the whole composition phase (everything
before the footer loop): the current page is the last one, every trace entry
satisfies `entryOK`, the recorded page counts are monotone along the trace,
and the cursor never sits above the top margin. -/
structure Inv (s : DocState) : Prop where
  cur : s.current = s.pageCount
  one_le : 1 ≤ s.pageCount
  entries : ∀ e ∈ s.trace, entryOK s.pageCount e
  mono : s.trace.Pairwise (fun a b => a.pagesAt ≤ b.pagesAt)
  ylb : margin ≤ s.yPos

lemma entryOK_mono {a b : Nat} (h : a ≤ b) {e : Emit} (he : entryOK a e) : entryOK b e :=
  ⟨he.1.trans h, he.2.1.trans h, he.2.2⟩

lemma extP_trans {B : Emit → Prop} {s1 s2 s3 : DocState}
    (h12 : ∃ t, s2.trace = s1.trace ++ t ∧ ∀ e ∈ t, B e)
    (h23 : ∃ t, s3.trace = s2.trace ++ t ∧ ∀ e ∈ t, B e) :
    ∃ t, s3.trace = s1.trace ++ t ∧ ∀ e ∈ t, B e := by
  obtain ⟨a, ha, hBa⟩ := h12
  obtain ⟨b, hb, hBb⟩ := h23
  refine ⟨a ++ b, by rw [hb, ha, List.append_assoc], ?_⟩
  intro e he
  rcases List.mem_append.1 he with h | h
  exacts [hBa e h, hBb e h]

lemma extP_of_eq {B : Emit → Prop} {s1 s2 : DocState} (h : s2.trace = s1.trace) :
    ∃ t, s2.trace = s1.trace ++ t ∧ ∀ e ∈ t, B e :=
  ⟨[], by simp [h], by simp⟩

lemma newTrace_eq {f : DocState → DocState} {s : DocState} {t : List Emit}
    (h : (f s).trace = s.trace ++ t) : newTrace f s = t := by
  simp [newTrace, h]

lemma emit_trace (op : Op) (s : DocState) :
    (emit op s).trace = s.trace ++ [⟨op, s.current, s.yPos, s.pageCount⟩] := rfl

lemma inv_emit {s : DocState} (hs : Inv s) {op : Op}
    (h1 : isPageNumPos op = false) (h2 : isTsPos op = false)
    (h3 : ∀ fmt x y w h, op = Op.image fmt x y w h → fmt = "JPEG") :
    Inv (emit op s) := by
  refine ⟨hs.cur, hs.one_le, ?_, ?_, hs.ylb⟩
  · intro e he
    rcases List.mem_append.1 he with he | he
    · exact hs.entries e he
    · rcases List.mem_singleton.1 he with rfl
      exact ⟨le_of_eq hs.cur, le_refl _, h1, h2, h3⟩
  · refine List.pairwise_append.2 ⟨hs.mono, by simp, ?_⟩
    intro a ha b hb
    rcases List.mem_singleton.1 hb with rfl
    exact (hs.entries a ha).2.1

lemma inv_drawText_left {s : DocState} (hs : Inv s) (str : String) (x y : ℚ) :
    Inv (drawText str x y Align.left s) :=
  inv_emit hs (by simp [isPageNumPos]) (by simp [isTsPos]) (by intro _ _ _ _ _ h; cases h)

lemma inv_drawText_center {s : DocState} (hs : Inv s) (str : String) (x y : ℚ)
    (hy1 : y ≠ pageHeight - 10) (hy2 : y ≠ pageHeight - 6) :
    Inv (drawText str x y Align.center s) :=
  inv_emit hs (by simp [isPageNumPos, hy1]) (by simp [isTsPos, hy2])
    (by intro _ _ _ _ _ h; cases h)

lemma inv_drawRect {s : DocState} (hs : Inv s) (x y w h : ℚ) :
    Inv (drawRect x y w h s) :=
  inv_emit hs (by simp [isPageNumPos]) (by simp [isTsPos]) (by intro _ _ _ _ _ h; cases h)

lemma inv_drawLine {s : DocState} (hs : Inv s) (x1 y1 x2 y2 : ℚ) :
    Inv (drawLine x1 y1 x2 y2 s) :=
  inv_emit hs (by simp [isPageNumPos]) (by simp [isTsPos]) (by intro _ _ _ _ _ h; cases h)

lemma inv_drawImage {s : DocState} (hs : Inv s) (x y w h : ℚ) :
    Inv (drawImage "JPEG" x y w h s) :=
  inv_emit hs (by simp [isPageNumPos]) (by simp [isTsPos])
    (by intro _ _ _ _ _ h; cases h; rfl)

lemma inv_setFontSize {s : DocState} (h : Inv s) (n : ℚ) : Inv (setFontSize n s) :=
  ⟨h.cur, h.one_le, h.entries, h.mono, h.ylb⟩

lemma inv_setFontBold {s : DocState} (h : Inv s) (b : Bool) : Inv (setFontBold b s) :=
  ⟨h.cur, h.one_le, h.entries, h.mono, h.ylb⟩

lemma inv_setTextColor {s : DocState} (h : Inv s) (c : Color) : Inv (setTextColor c s) :=
  ⟨h.cur, h.one_le, h.entries, h.mono, h.ylb⟩

lemma inv_setFillColor {s : DocState} (h : Inv s) (c : Color) : Inv (setFillColor c s) :=
  ⟨h.cur, h.one_le, h.entries, h.mono, h.ylb⟩

lemma inv_setDrawColor {s : DocState} (h : Inv s) (c : Color) : Inv (setDrawColor c s) :=
  ⟨h.cur, h.one_le, h.entries, h.mono, h.ylb⟩

lemma inv_setLineWidth {s : DocState} (h : Inv s) (w : ℚ) : Inv (setLineWidth w s) :=
  ⟨h.cur, h.one_le, h.entries, h.mono, h.ylb⟩

lemma inv_setY {s : DocState} (h : Inv s) {v : ℚ} (hv : margin ≤ v) :
    Inv { s with yPos := v } :=
  ⟨h.cur, h.one_le, h.entries, h.mono, hv⟩

lemma inv_addPage {s : DocState} (h : Inv s) : Inv (addPage s) :=
  ⟨rfl, h.one_le.trans (Nat.le_succ _),
    fun e he => entryOK_mono (Nat.le_succ _) (h.entries e he), h.mono, h.ylb⟩

lemma checkNewPage_trace (r : ℚ) (s : DocState) : (checkNewPage r s).2.trace = s.trace := by
  unfold checkNewPage
  split <;> rfl

lemma inv_checkNewPage {s : DocState} (h : Inv s) (r : ℚ) :
    Inv (checkNewPage r s).2 := by
  unfold checkNewPage
  split
  · exact inv_setY (inv_addPage h) le_rfl
  · exact h

lemma checkNewPage_ylb {s : DocState} (h : Inv s) (r : ℚ) :
    margin ≤ (checkNewPage r s).2.yPos :=
  (inv_checkNewPage h r).ylb

lemma checkNewPage_yub {s : DocState} (r : ℚ) (hr : margin + r ≤ pageHeight - margin) :
    (checkNewPage r s).2.yPos + r ≤ pageHeight - margin := by
  unfold checkNewPage
  split
  · simpa using hr
  · next hc => exact le_of_not_lt hc

lemma inv_addLine {s : DocState} (h : Inv s) :
    Inv (addLine s) ∧ ∃ t, (addLine s).trace = s.trace ++ t := by
  constructor
  · exact inv_setY (inv_drawLine (inv_setLineWidth (inv_setDrawColor h _) _) _ _ _ _)
      (le_add_of_le_of_nonneg
        (inv_drawLine (inv_setLineWidth (inv_setDrawColor h _) _) _ _ _ _).ylb (by norm_num))
  · exact ⟨_, rfl⟩

lemma writeLines_cons (req adv : ℚ) (l : String) (ls : List String) (s : DocState) :
    writeLines req adv (l :: ls) s =
      writeLines req adv ls
        (let s1 := (checkNewPage req s).2
         let s2 := drawText l margin s1.yPos Align.left s1
         { s2 with yPos := s2.yPos + adv }) := rfl

lemma writeLines_trace (req adv : ℚ) :
    ∀ (lines : List String) (s : DocState),
      ∃ t, (writeLines req adv lines s).trace = s.trace ++ t ∧
        t.map (fun e => opStr e.op) = lines.map (fun l => some l) := by
  intro lines
  induction lines with
  | nil => intro s; exact ⟨[], by simp [writeLines], by simp⟩
  | cons l ls ih =>
    intro s
    rw [writeLines_cons]
    obtain ⟨t, ht, hm⟩ := ih _
    refine ⟨⟨Op.text l margin (checkNewPage req s).2.yPos (checkNewPage req s).2.fontSize
        (checkNewPage req s).2.bold (checkNewPage req s).2.textColor Align.left,
        (checkNewPage req s).2.current, (checkNewPage req s).2.yPos,
        (checkNewPage req s).2.pageCount⟩ :: t, ?_,
      by rw [List.map_cons, hm, List.map_cons]; rfl⟩
    rw [ht]
    simp [drawText, emit_trace, checkNewPage_trace]

lemma writeLines_inv (req adv : ℚ) (hreq0 : 0 ≤ req)
    (hreq : margin + req ≤ pageHeight - margin) (hadv : 0 ≤ adv) :
    ∀ (lines : List String) {s : DocState}, Inv s →
      Inv (writeLines req adv lines s) ∧
      ∃ t, (writeLines req adv lines s).trace = s.trace ++ t ∧ ∀ e ∈ t, inRange e := by
  intro lines
  induction lines with
  | nil => intro s h; exact ⟨h, extP_of_eq rfl⟩
  | cons l ls ih =>
    intro s h
    rw [writeLines_cons]
    have h1 : Inv (checkNewPage req s).2 := inv_checkNewPage h req
    have hylb := h1.ylb
    have hyub : (checkNewPage req s).2.yPos ≤ pageHeight - margin := by
      have := checkNewPage_yub (s := s) req hreq
      linarith
    have h2 : Inv (drawText l margin (checkNewPage req s).2.yPos Align.left
        (checkNewPage req s).2) := inv_drawText_left h1 _ _ _
    have h3 : Inv { drawText l margin (checkNewPage req s).2.yPos Align.left
        (checkNewPage req s).2 with
          yPos := (drawText l margin (checkNewPage req s).2.yPos Align.left
            (checkNewPage req s).2).yPos + adv } :=
      inv_setY h2 (le_add_of_le_of_nonneg h2.ylb hadv)
    obtain ⟨hInv, t, ht, hB⟩ := ih h3
    have hmid : ∃ u, ({ drawText l margin (checkNewPage req s).2.yPos Align.left
        (checkNewPage req s).2 with
          yPos := (drawText l margin (checkNewPage req s).2.yPos Align.left
            (checkNewPage req s).2).yPos + adv } : DocState).trace = s.trace ++ u ∧
          ∀ e ∈ u, inRange e := ?_
    · exact ⟨hInv, extP_trans hmid ⟨t, ht, hB⟩⟩
    refine ⟨[⟨Op.text l margin (checkNewPage req s).2.yPos (checkNewPage req s).2.fontSize
        (checkNewPage req s).2.bold (checkNewPage req s).2.textColor Align.left,
        (checkNewPage req s).2.current, (checkNewPage req s).2.yPos,
        (checkNewPage req s).2.pageCount⟩], ?_, ?_⟩
    · simp [drawText, emit_trace, checkNewPage_trace]
    · intro e he
      rcases List.mem_singleton.1 he with rfl
      exact ⟨hylb, hyub⟩

lemma ext_trans {s1 s2 s3 : DocState} (h12 : ∃ t, s2.trace = s1.trace ++ t)
    (h23 : ∃ t, s3.trace = s2.trace ++ t) : ∃ t, s3.trace = s1.trace ++ t := by
  obtain ⟨a, ha⟩ := h12
  obtain ⟨b, hb⟩ := h23
  exact ⟨a ++ b, by rw [hb, ha, List.append_assoc]⟩

@[simp] lemma emit_yPos (op : Op) (s : DocState) : (emit op s).yPos = s.yPos := rfl
@[simp] lemma emit_current (op : Op) (s : DocState) : (emit op s).current = s.current := rfl
@[simp] lemma emit_pageCount (op : Op) (s : DocState) : (emit op s).pageCount = s.pageCount := rfl
@[simp] lemma emit_fontSize (op : Op) (s : DocState) : (emit op s).fontSize = s.fontSize := rfl
@[simp] lemma emit_bold (op : Op) (s : DocState) : (emit op s).bold = s.bold := rfl
@[simp] lemma emit_textColor (op : Op) (s : DocState) : (emit op s).textColor = s.textColor := rfl
@[simp] lemma emit_fillColor (op : Op) (s : DocState) : (emit op s).fillColor = s.fillColor := rfl
@[simp] lemma emit_drawColor (op : Op) (s : DocState) : (emit op s).drawColor = s.drawColor := rfl
@[simp] lemma emit_lineWidth (op : Op) (s : DocState) : (emit op s).lineWidth = s.lineWidth := rfl

@[simp] lemma addPage_yPos (s : DocState) : (addPage s).yPos = s.yPos := rfl
@[simp] lemma addPage_trace (s : DocState) : (addPage s).trace = s.trace := rfl
@[simp] lemma addPage_pageCount (s : DocState) : (addPage s).pageCount = s.pageCount + 1 := rfl
@[simp] lemma addPage_current (s : DocState) : (addPage s).current = s.pageCount + 1 := rfl
@[simp] lemma addPage_fontSize (s : DocState) : (addPage s).fontSize = s.fontSize := rfl
@[simp] lemma addPage_bold (s : DocState) : (addPage s).bold = s.bold := rfl
@[simp] lemma addPage_textColor (s : DocState) : (addPage s).textColor = s.textColor := rfl
@[simp] lemma addPage_fillColor (s : DocState) : (addPage s).fillColor = s.fillColor := rfl
@[simp] lemma addPage_drawColor (s : DocState) : (addPage s).drawColor = s.drawColor := rfl
@[simp] lemma addPage_lineWidth (s : DocState) : (addPage s).lineWidth = s.lineWidth := rfl

@[simp] lemma setDrawColor_drawColor (c : Color) (s : DocState) :
    (setDrawColor c s).drawColor = c := rfl
@[simp] lemma setDrawColor_fillColor (c : Color) (s : DocState) :
    (setDrawColor c s).fillColor = s.fillColor := rfl
@[simp] lemma setDrawColor_lineWidth (c : Color) (s : DocState) :
    (setDrawColor c s).lineWidth = s.lineWidth := rfl
@[simp] lemma setLineWidth_lineWidth (w : ℚ) (s : DocState) :
    (setLineWidth w s).lineWidth = w := rfl
@[simp] lemma setLineWidth_drawColor (w : ℚ) (s : DocState) :
    (setLineWidth w s).drawColor = s.drawColor := rfl
@[simp] lemma setLineWidth_fillColor (w : ℚ) (s : DocState) :
    (setLineWidth w s).fillColor = s.fillColor := rfl
@[simp] lemma setFontSize_drawColor (n : ℚ) (s : DocState) :
    (setFontSize n s).drawColor = s.drawColor := rfl
@[simp] lemma setFontSize_lineWidth (n : ℚ) (s : DocState) :
    (setFontSize n s).lineWidth = s.lineWidth := rfl
@[simp] lemma setFontBold_drawColor (b : Bool) (s : DocState) :
    (setFontBold b s).drawColor = s.drawColor := rfl
@[simp] lemma setFontBold_lineWidth (b : Bool) (s : DocState) :
    (setFontBold b s).lineWidth = s.lineWidth := rfl
@[simp] lemma setTextColor_drawColor (c : Color) (s : DocState) :
    (setTextColor c s).drawColor = s.drawColor := rfl
@[simp] lemma setTextColor_lineWidth (c : Color) (s : DocState) :
    (setTextColor c s).lineWidth = s.lineWidth := rfl
@[simp] lemma setFillColor_drawColor (c : Color) (s : DocState) :
    (setFillColor c s).drawColor = s.drawColor := rfl
@[simp] lemma setFillColor_lineWidth (c : Color) (s : DocState) :
    (setFillColor c s).lineWidth = s.lineWidth := rfl
@[simp] lemma drawText_drawColor (str : String) (x y : ℚ) (al : Align) (s : DocState) :
    (drawText str x y al s).drawColor = s.drawColor := rfl
@[simp] lemma drawText_lineWidth (str : String) (x y : ℚ) (al : Align) (s : DocState) :
    (drawText str x y al s).lineWidth = s.lineWidth := rfl
@[simp] lemma drawRect_drawColor (x y w h : ℚ) (s : DocState) :
    (drawRect x y w h s).drawColor = s.drawColor := rfl
@[simp] lemma drawRect_lineWidth (x y w h : ℚ) (s : DocState) :
    (drawRect x y w h s).lineWidth = s.lineWidth := rfl
@[simp] lemma drawLine_drawColor (x1 y1 x2 y2 : ℚ) (s : DocState) :
    (drawLine x1 y1 x2 y2 s).drawColor = s.drawColor := rfl
@[simp] lemma drawLine_lineWidth (x1 y1 x2 y2 : ℚ) (s : DocState) :
    (drawLine x1 y1 x2 y2 s).lineWidth = s.lineWidth := rfl
@[simp] lemma drawLine_fillColor (x1 y1 x2 y2 : ℚ) (s : DocState) :
    (drawLine x1 y1 x2 y2 s).fillColor = s.fillColor := rfl

@[simp] lemma setPage_trace (i : Nat) (s : DocState) : (setPage i s).trace = s.trace := rfl
@[simp] lemma setPage_yPos (i : Nat) (s : DocState) : (setPage i s).yPos = s.yPos := rfl
@[simp] lemma setPage_pageCount (i : Nat) (s : DocState) :
    (setPage i s).pageCount = s.pageCount := rfl
@[simp] lemma setPage_current (i : Nat) (s : DocState) : (setPage i s).current = i := rfl

@[simp] lemma setFontSize_yPos (n : ℚ) (s : DocState) : (setFontSize n s).yPos = s.yPos := rfl
@[simp] lemma setFontSize_trace (n : ℚ) (s : DocState) : (setFontSize n s).trace = s.trace := rfl
@[simp] lemma setFontSize_current (n : ℚ) (s : DocState) :
    (setFontSize n s).current = s.current := rfl
@[simp] lemma setFontSize_pageCount (n : ℚ) (s : DocState) :
    (setFontSize n s).pageCount = s.pageCount := rfl
@[simp] lemma setFontSize_fontSize (n : ℚ) (s : DocState) : (setFontSize n s).fontSize = n := rfl
@[simp] lemma setFontSize_bold (n : ℚ) (s : DocState) : (setFontSize n s).bold = s.bold := rfl
@[simp] lemma setFontSize_textColor (n : ℚ) (s : DocState) :
    (setFontSize n s).textColor = s.textColor := rfl
@[simp] lemma setFontSize_fillColor (n : ℚ) (s : DocState) :
    (setFontSize n s).fillColor = s.fillColor := rfl

@[simp] lemma setFontBold_yPos (b : Bool) (s : DocState) : (setFontBold b s).yPos = s.yPos := rfl
@[simp] lemma setFontBold_trace (b : Bool) (s : DocState) :
    (setFontBold b s).trace = s.trace := rfl
@[simp] lemma setFontBold_current (b : Bool) (s : DocState) :
    (setFontBold b s).current = s.current := rfl
@[simp] lemma setFontBold_pageCount (b : Bool) (s : DocState) :
    (setFontBold b s).pageCount = s.pageCount := rfl
@[simp] lemma setFontBold_fontSize (b : Bool) (s : DocState) :
    (setFontBold b s).fontSize = s.fontSize := rfl
@[simp] lemma setFontBold_bold (b : Bool) (s : DocState) : (setFontBold b s).bold = b := rfl
@[simp] lemma setFontBold_textColor (b : Bool) (s : DocState) :
    (setFontBold b s).textColor = s.textColor := rfl
@[simp] lemma setFontBold_fillColor (b : Bool) (s : DocState) :
    (setFontBold b s).fillColor = s.fillColor := rfl

@[simp] lemma setTextColor_yPos (c : Color) (s : DocState) : (setTextColor c s).yPos = s.yPos := rfl
@[simp] lemma setTextColor_trace (c : Color) (s : DocState) :
    (setTextColor c s).trace = s.trace := rfl
@[simp] lemma setTextColor_current (c : Color) (s : DocState) :
    (setTextColor c s).current = s.current := rfl
@[simp] lemma setTextColor_pageCount (c : Color) (s : DocState) :
    (setTextColor c s).pageCount = s.pageCount := rfl
@[simp] lemma setTextColor_fontSize (c : Color) (s : DocState) :
    (setTextColor c s).fontSize = s.fontSize := rfl
@[simp] lemma setTextColor_bold (c : Color) (s : DocState) :
    (setTextColor c s).bold = s.bold := rfl
@[simp] lemma setTextColor_textColor (c : Color) (s : DocState) :
    (setTextColor c s).textColor = c := rfl
@[simp] lemma setTextColor_fillColor (c : Color) (s : DocState) :
    (setTextColor c s).fillColor = s.fillColor := rfl

@[simp] lemma setFillColor_yPos (c : Color) (s : DocState) : (setFillColor c s).yPos = s.yPos := rfl
@[simp] lemma setFillColor_trace (c : Color) (s : DocState) :
    (setFillColor c s).trace = s.trace := rfl
@[simp] lemma setFillColor_current (c : Color) (s : DocState) :
    (setFillColor c s).current = s.current := rfl
@[simp] lemma setFillColor_pageCount (c : Color) (s : DocState) :
    (setFillColor c s).pageCount = s.pageCount := rfl
@[simp] lemma setFillColor_fontSize (c : Color) (s : DocState) :
    (setFillColor c s).fontSize = s.fontSize := rfl
@[simp] lemma setFillColor_bold (c : Color) (s : DocState) :
    (setFillColor c s).bold = s.bold := rfl
@[simp] lemma setFillColor_textColor (c : Color) (s : DocState) :
    (setFillColor c s).textColor = s.textColor := rfl
@[simp] lemma setFillColor_fillColor (c : Color) (s : DocState) :
    (setFillColor c s).fillColor = c := rfl

@[simp] lemma setDrawColor_yPos (c : Color) (s : DocState) : (setDrawColor c s).yPos = s.yPos := rfl
@[simp] lemma setDrawColor_trace (c : Color) (s : DocState) :
    (setDrawColor c s).trace = s.trace := rfl
@[simp] lemma setDrawColor_current (c : Color) (s : DocState) :
    (setDrawColor c s).current = s.current := rfl
@[simp] lemma setDrawColor_pageCount (c : Color) (s : DocState) :
    (setDrawColor c s).pageCount = s.pageCount := rfl
@[simp] lemma setDrawColor_fontSize (c : Color) (s : DocState) :
    (setDrawColor c s).fontSize = s.fontSize := rfl
@[simp] lemma setDrawColor_bold (c : Color) (s : DocState) :
    (setDrawColor c s).bold = s.bold := rfl
@[simp] lemma setDrawColor_textColor (c : Color) (s : DocState) :
    (setDrawColor c s).textColor = s.textColor := rfl

@[simp] lemma setLineWidth_yPos (w : ℚ) (s : DocState) : (setLineWidth w s).yPos = s.yPos := rfl
@[simp] lemma setLineWidth_trace (w : ℚ) (s : DocState) :
    (setLineWidth w s).trace = s.trace := rfl
@[simp] lemma setLineWidth_current (w : ℚ) (s : DocState) :
    (setLineWidth w s).current = s.current := rfl
@[simp] lemma setLineWidth_pageCount (w : ℚ) (s : DocState) :
    (setLineWidth w s).pageCount = s.pageCount := rfl
@[simp] lemma setLineWidth_fontSize (w : ℚ) (s : DocState) :
    (setLineWidth w s).fontSize = s.fontSize := rfl
@[simp] lemma setLineWidth_bold (w : ℚ) (s : DocState) :
    (setLineWidth w s).bold = s.bold := rfl
@[simp] lemma setLineWidth_textColor (w : ℚ) (s : DocState) :
    (setLineWidth w s).textColor = s.textColor := rfl

@[simp] lemma drawText_trace (str : String) (x y : ℚ) (al : Align) (s : DocState) :
    (drawText str x y al s).trace =
      s.trace ++ [⟨Op.text str x y s.fontSize s.bold s.textColor al,
        s.current, s.yPos, s.pageCount⟩] := rfl
@[simp] lemma drawText_yPos (str : String) (x y : ℚ) (al : Align) (s : DocState) :
    (drawText str x y al s).yPos = s.yPos := rfl
@[simp] lemma drawText_current (str : String) (x y : ℚ) (al : Align) (s : DocState) :
    (drawText str x y al s).current = s.current := rfl
@[simp] lemma drawText_pageCount (str : String) (x y : ℚ) (al : Align) (s : DocState) :
    (drawText str x y al s).pageCount = s.pageCount := rfl
@[simp] lemma drawText_fontSize (str : String) (x y : ℚ) (al : Align) (s : DocState) :
    (drawText str x y al s).fontSize = s.fontSize := rfl
@[simp] lemma drawText_bold (str : String) (x y : ℚ) (al : Align) (s : DocState) :
    (drawText str x y al s).bold = s.bold := rfl
@[simp] lemma drawText_textColor (str : String) (x y : ℚ) (al : Align) (s : DocState) :
    (drawText str x y al s).textColor = s.textColor := rfl
@[simp] lemma drawText_fillColor (str : String) (x y : ℚ) (al : Align) (s : DocState) :
    (drawText str x y al s).fillColor = s.fillColor := rfl

@[simp] lemma drawRect_trace (x y w h : ℚ) (s : DocState) :
    (drawRect x y w h s).trace =
      s.trace ++ [⟨Op.rect x y w h s.fillColor, s.current, s.yPos, s.pageCount⟩] := rfl
@[simp] lemma drawRect_yPos (x y w h : ℚ) (s : DocState) :
    (drawRect x y w h s).yPos = s.yPos := rfl
@[simp] lemma drawRect_current (x y w h : ℚ) (s : DocState) :
    (drawRect x y w h s).current = s.current := rfl
@[simp] lemma drawRect_pageCount (x y w h : ℚ) (s : DocState) :
    (drawRect x y w h s).pageCount = s.pageCount := rfl
@[simp] lemma drawRect_fontSize (x y w h : ℚ) (s : DocState) :
    (drawRect x y w h s).fontSize = s.fontSize := rfl
@[simp] lemma drawRect_bold (x y w h : ℚ) (s : DocState) :
    (drawRect x y w h s).bold = s.bold := rfl
@[simp] lemma drawRect_textColor (x y w h : ℚ) (s : DocState) :
    (drawRect x y w h s).textColor = s.textColor := rfl
@[simp] lemma drawRect_fillColor (x y w h : ℚ) (s : DocState) :
    (drawRect x y w h s).fillColor = s.fillColor := rfl

@[simp] lemma drawLine_trace (x1 y1 x2 y2 : ℚ) (s : DocState) :
    (drawLine x1 y1 x2 y2 s).trace =
      s.trace ++ [⟨Op.line x1 y1 x2 y2 s.drawColor s.lineWidth,
        s.current, s.yPos, s.pageCount⟩] := rfl
@[simp] lemma drawLine_yPos (x1 y1 x2 y2 : ℚ) (s : DocState) :
    (drawLine x1 y1 x2 y2 s).yPos = s.yPos := rfl
@[simp] lemma drawLine_current (x1 y1 x2 y2 : ℚ) (s : DocState) :
    (drawLine x1 y1 x2 y2 s).current = s.current := rfl
@[simp] lemma drawLine_pageCount (x1 y1 x2 y2 : ℚ) (s : DocState) :
    (drawLine x1 y1 x2 y2 s).pageCount = s.pageCount := rfl
@[simp] lemma drawLine_fontSize (x1 y1 x2 y2 : ℚ) (s : DocState) :
    (drawLine x1 y1 x2 y2 s).fontSize = s.fontSize := rfl
@[simp] lemma drawLine_bold (x1 y1 x2 y2 : ℚ) (s : DocState) :
    (drawLine x1 y1 x2 y2 s).bold = s.bold := rfl
@[simp] lemma drawLine_textColor (x1 y1 x2 y2 : ℚ) (s : DocState) :
    (drawLine x1 y1 x2 y2 s).textColor = s.textColor := rfl

@[simp] lemma drawImage_trace (fmt : String) (x y w h : ℚ) (s : DocState) :
    (drawImage fmt x y w h s).trace =
      s.trace ++ [⟨Op.image fmt x y w h, s.current, s.yPos, s.pageCount⟩] := rfl
@[simp] lemma drawImage_yPos (fmt : String) (x y w h : ℚ) (s : DocState) :
    (drawImage fmt x y w h s).yPos = s.yPos := rfl
@[simp] lemma drawImage_current (fmt : String) (x y w h : ℚ) (s : DocState) :
    (drawImage fmt x y w h s).current = s.current := rfl
@[simp] lemma drawImage_pageCount (fmt : String) (x y w h : ℚ) (s : DocState) :
    (drawImage fmt x y w h s).pageCount = s.pageCount := rfl
@[simp] lemma drawImage_fontSize (fmt : String) (x y w h : ℚ) (s : DocState) :
    (drawImage fmt x y w h s).fontSize = s.fontSize := rfl
@[simp] lemma drawImage_bold (fmt : String) (x y w h : ℚ) (s : DocState) :
    (drawImage fmt x y w h s).bold = s.bold := rfl
@[simp] lemma drawImage_textColor (fmt : String) (x y w h : ℚ) (s : DocState) :
    (drawImage fmt x y w h s).textColor = s.textColor := rfl
@[simp] lemma drawImage_fillColor (fmt : String) (x y w h : ℚ) (s : DocState) :
    (drawImage fmt x y w h s).fillColor = s.fillColor := rfl
@[simp] lemma drawImage_drawColor (fmt : String) (x y w h : ℚ) (s : DocState) :
    (drawImage fmt x y w h s).drawColor = s.drawColor := rfl
@[simp] lemma drawImage_lineWidth (fmt : String) (x y w h : ℚ) (s : DocState) :
    (drawImage fmt x y w h s).lineWidth = s.lineWidth := rfl

lemma textMulti_inv :
    ∀ (lines : List String) (x y : ℚ) {s : DocState}, Inv s →
      Inv (textMulti lines x y s) ∧ ∃ t, (textMulti lines x y s).trace = s.trace ++ t := by
  intro lines
  induction lines with
  | nil => intro x y s h; exact ⟨h, ⟨[], by simp [textMulti]⟩⟩
  | cons l ls ih =>
    intro x y s h
    have h1 : Inv (drawText l x y Align.left s) := inv_drawText_left h _ _ _
    obtain ⟨hInv, ht⟩ := ih x (y + 5) h1
    exact ⟨hInv, ext_trans ⟨_, rfl⟩ ht⟩

lemma ne_footY10 {y : ℚ} (hy : y ≤ 250) : y ≠ pageHeight - 10 := by
  have h287 : pageHeight - 10 = (287 : ℚ) := by norm_num [pageHeight]
  rw [h287]
  intro hEq
  rw [hEq] at hy
  norm_num at hy

lemma ne_footY6 {y : ℚ} (hy : y ≤ 250) : y ≠ pageHeight - 6 := by
  have h291 : pageHeight - 6 = (291 : ℚ) := by norm_num [pageHeight]
  rw [h291]
  intro hEq
  rw [hEq] at hy
  norm_num at hy

lemma addSectionHeader_trace (title : String) (s : DocState) :
    (addSectionHeader title s).trace = s.trace ++
      [⟨Op.rect margin (checkNewPage 20 s).2.yPos contentWidth 10 (240, 240, 240),
        (checkNewPage 20 s).2.current, (checkNewPage 20 s).2.yPos + 5,
        (checkNewPage 20 s).2.pageCount⟩,
       ⟨Op.text title (margin + 3) ((checkNewPage 20 s).2.yPos + 5 + 2) 12 true (30, 30, 30)
          Align.left,
        (checkNewPage 20 s).2.current, (checkNewPage 20 s).2.yPos + 5,
        (checkNewPage 20 s).2.pageCount⟩] := by
  simp [addSectionHeader, checkNewPage_trace]

lemma inv_addSectionHeader (title : String) {s : DocState} (h : Inv s) :
    Inv (addSectionHeader title s) ∧
    ∃ t, (addSectionHeader title s).trace = s.trace ++ t ∧ ∀ e ∈ t, inRange e := by
  have h0 : Inv (checkNewPage 20 s).2 := inv_checkNewPage h 20
  have hub : (checkNewPage 20 s).2.yPos + 20 ≤ pageHeight - margin :=
    checkNewPage_yub 20 (by norm_num [margin, pageHeight])
  have hlb := h0.ylb
  constructor
  · unfold addSectionHeader
    apply inv_setTextColor
    apply inv_setY
    · apply inv_drawText_left
      apply inv_setTextColor
      apply inv_setFontBold
      apply inv_setFontSize
      apply inv_drawRect
      apply inv_setFillColor
      exact inv_setY h0 (by linarith)
    · simp
      linarith
  · refine ⟨_, addSectionHeader_trace title s, ?_⟩
    intro e he
    simp only [List.mem_cons, List.not_mem_nil, or_false] at he
    rcases he with rfl | rfl
    · exact ⟨by simp; linarith, by simp; linarith⟩
    · exact ⟨by simp; linarith, by simp; linarith⟩

lemma detailPair_trace (lbl value : String) (s : DocState) :
    (detailPair lbl value s).trace = s.trace ++
      [⟨Op.text lbl margin s.yPos s.fontSize true s.textColor Align.left,
        s.current, s.yPos, s.pageCount⟩,
       ⟨Op.text value (margin + 35) s.yPos s.fontSize false s.textColor Align.left,
        s.current, s.yPos, s.pageCount⟩] := by
  simp [detailPair]

lemma inv_detailPair (lbl value : String) {s : DocState} (h : Inv s) :
    Inv (detailPair lbl value s) := by
  unfold detailPair
  apply inv_setY
  · exact inv_drawText_left (inv_setFontBold (inv_drawText_left
      (inv_setFontBold h true) _ _ _) false) _ _ _
  · simp
    have := h.ylb
    linarith

lemma textMulti_ext :
    ∀ (lines : List String) (x y : ℚ) (s : DocState),
      ∃ t, (textMulti lines x y s).trace = s.trace ++ t ∧
        ∀ e ∈ t, ∃ str yy, e.op = Op.text str x yy s.fontSize s.bold s.textColor Align.left := by
  intro lines
  induction lines with
  | nil => intro x y s; exact ⟨[], by simp [textMulti], by simp⟩
  | cons l ls ih =>
    intro x y s
    obtain ⟨t, ht, hall⟩ := ih x (y + 5) (drawText l x y Align.left s)
    refine ⟨⟨Op.text l x y s.fontSize s.bold s.textColor Align.left,
        s.current, s.yPos, s.pageCount⟩ :: t, ?_, ?_⟩
    · show (textMulti ls x (y + 5) (drawText l x y Align.left s)).trace = _
      rw [ht]
      simp
    · intro e he
      simp only [List.mem_cons] at he
      rcases he with rfl | he
      · exact ⟨l, y, rfl⟩
      · obtain ⟨str, yy, hop⟩ := hall e he
        exact ⟨str, yy, by simpa using hop⟩

lemma detailMulti_trace (lbl : String) (lines : List String) (s : DocState) :
    ∃ t, (detailMulti lbl lines s).trace = s.trace ++
      (⟨Op.text lbl margin s.yPos s.fontSize true s.textColor Align.left,
        s.current, s.yPos, s.pageCount⟩ :: t) ∧
      ∀ e ∈ t, ∃ str yy, e.op = Op.text str (margin + 35) yy s.fontSize false s.textColor
        Align.left := by
  obtain ⟨t, ht, hall⟩ := textMulti_ext lines (margin + 35)
    (setFontBold false (drawText lbl margin (setFontBold true s).yPos Align.left
      (setFontBold true s))).yPos
    (setFontBold false (drawText lbl margin (setFontBold true s).yPos Align.left
      (setFontBold true s)))
  refine ⟨t, ?_, ?_⟩
  · show (textMulti lines (margin + 35) _ _).trace = _
    rw [ht]
    simp
  · intro e he
    obtain ⟨str, yy, hop⟩ := hall e he
    exact ⟨str, yy, by simpa using hop⟩

lemma inv_detailMulti (lbl : String) (lines : List String) {s : DocState} (h : Inv s) :
    Inv (detailMulti lbl lines s) := by
  have hX : Inv (setFontBold false (drawText lbl margin (setFontBold true s).yPos Align.left
      (setFontBold true s))) :=
    inv_setFontBold (inv_drawText_left (inv_setFontBold h true) _ _ _) false
  obtain ⟨hInv, t, ht⟩ := textMulti_inv lines (margin + 35)
    (setFontBold false (drawText lbl margin (setFontBold true s).yPos Align.left
      (setFontBold true s))).yPos hX
  unfold detailMulti
  apply inv_setY hInv
  have hy := hInv.ylb
  have hlen : (0 : ℚ) ≤ (lines.length : ℚ) * 5 + 2 := by positivity
  linarith

lemma inv_skipOr (c : Prop) [Decidable c] {f : DocState → DocState} {s : DocState}
    (hs : Inv s) (hf : Inv (f s)) : Inv (if c then s else f s) := by
  split
  · exact hs
  · exact hf

lemma inv_detailsBlock (env : Env) (m : ReportMetadata) {s : DocState} (h : Inv s) :
    Inv (detailsBlock env m s) := by
  have h1 := (inv_addSectionHeader "Property & Client Details" h).1
  have h2 : Inv (setFontSize 10 (addSectionHeader "Property & Client Details" s)) :=
    inv_setFontSize h1 10
  have h3 := inv_skipOr (m.clientName = "") h2 (inv_detailPair "Client Name:" m.clientName h2)
  have h4 := inv_skipOr (m.clientAddress = "") h3
    (inv_detailMulti "Property Address:" (env.split m.clientAddress (contentWidth - 40)) h3)
  have h5 := inv_skipOr (m.inspectionDate = "") h4
    (inv_detailPair "Inspection Date:" (env.formatDate m.inspectionDate) h4)
  have h6 := inv_skipOr (m.inspectorName = "") h5 (inv_detailPair "Inspector:" m.inspectorName h5)
  have h7 := inv_skipOr (m.inspectorCredentials = "") h6
    (inv_detailMulti "Credentials:" (env.split m.inspectorCredentials (contentWidth - 40)) h6)
  exact inv_setY h7 (by have := h7.ylb; linarith)

lemma isLabelOp_value (lbl str : String) (x y fs : ℚ) (b : Bool) (c : Color) (al : Align)
    (hx : x ≠ margin) : isLabelOp lbl (Op.text str x y fs b c al) = false := by
  simp [isLabelOp, hx]

lemma detailsBlock_absent (env : Env) (m : ReportMetadata) (s : DocState) (lbl : String)
    (h1 : m.clientName = "" ∨ lbl ≠ "Client Name:")
    (h2 : m.clientAddress = "" ∨ lbl ≠ "Property Address:")
    (h3 : m.inspectionDate = "" ∨ lbl ≠ "Inspection Date:")
    (h4 : m.inspectorName = "" ∨ lbl ≠ "Inspector:")
    (h5 : m.inspectorCredentials = "" ∨ lbl ≠ "Credentials:") :
    ∃ t, (detailsBlock env m s).trace = s.trace ++ t ∧
      ∀ e ∈ t, isLabelOp lbl e.op = false := by
  have hm35 : margin + 35 ≠ margin := by norm_num
  have pairStep : ∀ (l v : String) (s' : DocState), l ≠ lbl →
      ∃ t, (detailPair l v s').trace = s'.trace ++ t ∧ ∀ e ∈ t, isLabelOp lbl e.op = false := by
    intro l v s' hl
    refine ⟨_, detailPair_trace l v s', ?_⟩
    intro e he
    simp only [List.mem_cons, List.not_mem_nil, or_false] at he
    rcases he with rfl | rfl
    · simpa [isLabelOp] using hl
    · exact isLabelOp_value _ _ _ _ _ _ _ _ hm35
  have multiStep : ∀ (l : String) (lines : List String) (s' : DocState), l ≠ lbl →
      ∃ t, (detailMulti l lines s').trace = s'.trace ++ t ∧
        ∀ e ∈ t, isLabelOp lbl e.op = false := by
    intro l lines s' hl
    obtain ⟨t, ht, hall⟩ := detailMulti_trace l lines s'
    refine ⟨_, ht, ?_⟩
    intro e he
    simp only [List.mem_cons] at he
    rcases he with rfl | he
    · simpa [isLabelOp] using hl
    · obtain ⟨str, yy, hop⟩ := hall e he
      rw [hop]
      exact isLabelOp_value _ _ _ _ _ _ _ _ hm35
  have condStep : ∀ (c : String) (lblC : String) (f : DocState → DocState) (s' : DocState),
      (c = "" ∨ lbl ≠ lblC) →
      (lbl ≠ lblC → ∃ t, (f s').trace = s'.trace ++ t ∧ ∀ e ∈ t, isLabelOp lbl e.op = false) →
      ∃ t, (if c = "" then s' else f s').trace = s'.trace ++ t ∧
        ∀ e ∈ t, isLabelOp lbl e.op = false := by
    intro c lblC f s' hor hf
    split
    · exact extP_of_eq rfl
    · next hc =>
      rcases hor with hc' | hl
      · exact absurd hc' hc
      · exact hf hl
  have headStep : ∃ t, (setFontSize 10 (addSectionHeader "Property & Client Details" s)).trace =
      s.trace ++ t ∧ ∀ e ∈ t, isLabelOp lbl e.op = false := by
    rw [setFontSize_trace]
    refine ⟨_, addSectionHeader_trace _ s, ?_⟩
    intro e he
    simp only [List.mem_cons, List.not_mem_nil, or_false] at he
    rcases he with rfl | rfl
    · rfl
    · exact isLabelOp_value _ _ _ _ _ _ _ _ (by norm_num)
  unfold detailsBlock
  refine extP_trans (extP_trans (extP_trans (extP_trans (extP_trans headStep
    (condStep m.clientName "Client Name:" _ _ h1 (fun hl => pairStep _ _ _ hl.symm)))
    (condStep m.clientAddress "Property Address:" _ _ h2 (fun hl => multiStep _ _ _ hl.symm)))
    (condStep m.inspectionDate "Inspection Date:" _ _ h3 (fun hl => pairStep _ _ _ hl.symm)))
    (condStep m.inspectorName "Inspector:" _ _ h4 (fun hl => pairStep _ _ _ hl.symm)))
    (extP_trans (condStep m.inspectorCredentials "Credentials:" _ _ h5
      (fun hl => multiStep _ _ _ hl.symm)) (extP_of_eq rfl))

lemma inv_headerBlock_init (m : ReportMetadata) : Inv (headerBlock m initState) := by
  by_cases hp : m.companyPhone = "" <;> by_cases he : m.companyEmail = "" <;>
    refine ⟨?_, ?_, ?_, ?_, ?_⟩ <;>
      simp [headerBlock, addLine, initState, hp, he, entryOK, isPageNumPos, isTsPos,
        List.pairwise_cons, pageHeight, margin] <;> norm_num

lemma tableRow_spec (shaded : Bool) (row : String × String) {s : DocState} (h : Inv s) :
    Inv (tableRow shaded row s) ∧
    ∃ t, (tableRow shaded row s).trace = s.trace ++ t ∧ (∀ e ∈ t, inRange e) ∧
      ∃ e ∈ t, opStr e.op = some row.2 ∧ opX e.op = some (margin + colWidth) := by
  have h0 : Inv (checkNewPage 8 s).2 := inv_checkNewPage h 8
  have hub : (checkNewPage 8 s).2.yPos + 8 ≤ pageHeight - margin :=
    checkNewPage_yub 8 (by norm_num [margin, pageHeight])
  have hlb := h0.ylb
  have hrange : margin ≤ (checkNewPage 8 s).2.yPos ∧
      (checkNewPage 8 s).2.yPos ≤ pageHeight - margin := ⟨hlb, by linarith⟩
  cases shaded
  · constructor
    · unfold tableRow
      simp only [Bool.false_eq_true, if_false]
      apply inv_setY
      · exact inv_drawText_left (inv_setFontBold (inv_drawText_left
          (inv_setFontBold h0 true) _ _ _) false) _ _ _
      · simp
        linarith
    · refine ⟨[⟨Op.text row.1 (margin + 2) (checkNewPage 8 s).2.yPos
          (checkNewPage 8 s).2.fontSize true (checkNewPage 8 s).2.textColor Align.left,
          (checkNewPage 8 s).2.current, (checkNewPage 8 s).2.yPos, (checkNewPage 8 s).2.pageCount⟩,
        ⟨Op.text row.2 (margin + colWidth) (checkNewPage 8 s).2.yPos
          (checkNewPage 8 s).2.fontSize false (checkNewPage 8 s).2.textColor Align.left,
          (checkNewPage 8 s).2.current, (checkNewPage 8 s).2.yPos,
          (checkNewPage 8 s).2.pageCount⟩], ?_, ?_, ?_⟩
      · unfold tableRow
        simp [checkNewPage_trace]
      · intro e hmem
        simp only [List.mem_cons, List.not_mem_nil, or_false] at hmem
        rcases hmem with rfl | rfl <;> exact hrange
      · refine ⟨_, List.mem_cons_of_mem _ (List.mem_singleton_self _), rfl, rfl⟩
  · constructor
    · unfold tableRow
      simp only [if_true]
      apply inv_setY
      · exact inv_drawText_left (inv_setFontBold (inv_drawText_left (inv_setFontBold
          (inv_drawRect (inv_setFillColor h0 _) _ _ _ _) true) _ _ _) false) _ _ _
      · simp
        linarith
    · refine ⟨[⟨Op.rect margin ((checkNewPage 8 s).2.yPos - 4) contentWidth 8 (248, 248, 248),
          (checkNewPage 8 s).2.current, (checkNewPage 8 s).2.yPos, (checkNewPage 8 s).2.pageCount⟩,
        ⟨Op.text row.1 (margin + 2) (checkNewPage 8 s).2.yPos
          (checkNewPage 8 s).2.fontSize true (checkNewPage 8 s).2.textColor Align.left,
          (checkNewPage 8 s).2.current, (checkNewPage 8 s).2.yPos, (checkNewPage 8 s).2.pageCount⟩,
        ⟨Op.text row.2 (margin + colWidth) (checkNewPage 8 s).2.yPos
          (checkNewPage 8 s).2.fontSize false (checkNewPage 8 s).2.textColor Align.left,
          (checkNewPage 8 s).2.current, (checkNewPage 8 s).2.yPos,
          (checkNewPage 8 s).2.pageCount⟩], ?_, ?_, ?_⟩
      · unfold tableRow
        simp [checkNewPage_trace]
      · intro e hmem
        simp only [List.mem_cons, List.not_mem_nil, or_false] at hmem
        rcases hmem with rfl | rfl | rfl <;> exact hrange
      · exact ⟨_, List.mem_cons_of_mem _ (List.mem_cons_of_mem _ (List.mem_singleton_self _)),
          rfl, rfl⟩

lemma tableRows_spec :
    ∀ (rows : List (String × String)) (idx : Nat) {s : DocState}, Inv s →
      Inv (tableRows rows idx s) ∧
      ∃ t, (tableRows rows idx s).trace = s.trace ++ t ∧ (∀ e ∈ t, inRange e) ∧
        ∀ r ∈ rows, ∃ e ∈ t, opStr e.op = some r.2 ∧ opX e.op = some (margin + colWidth) := by
  intro rows
  induction rows with
  | nil =>
    intro idx s h
    exact ⟨h, [], by simp [tableRows], by simp, by simp⟩
  | cons r rest ih =>
    intro idx s h
    obtain ⟨h1, t1, ht1, hr1, hv1⟩ := tableRow_spec (idx % 2 == 0) r h
    obtain ⟨h2, t2, ht2, hr2, hv2⟩ := ih (idx + 1) h1
    refine ⟨h2, t1 ++ t2, ?_, ?_, ?_⟩
    · show (tableRows rest (idx + 1) (tableRow (idx % 2 == 0) r s)).trace = _
      rw [ht2, ht1, List.append_assoc]
    · intro e hmem
      rcases List.mem_append.1 hmem with hmem | hmem
      exacts [hr1 e hmem, hr2 e hmem]
    · intro q hq
      rcases List.mem_cons.1 hq with rfl | hq
      · obtain ⟨e, hmem, hprop⟩ := hv1
        exact ⟨e, List.mem_append_left _ hmem, hprop⟩
      · obtain ⟨e, hmem, hprop⟩ := hv2 q hq
        exact ⟨e, List.mem_append_right _ hmem, hprop⟩

lemma tableBlock_spec (m : ReportMetadata) {s : DocState} (h : Inv s) :
    Inv (tableBlock m s) ∧
    ∃ t, (tableBlock m s).trace = s.trace ++ t ∧ (∀ e ∈ t, inRange e) ∧
      ∀ r ∈ tableData m, ∃ e ∈ t, opStr e.op = some r.2 ∧
        opX e.op = some (margin + colWidth) := by
  obtain ⟨h1, e1⟩ := inv_addSectionHeader "Inspection Details" h
  have h2 : Inv (setFontSize 10 (addSectionHeader "Inspection Details" s)) := inv_setFontSize h1 10
  obtain ⟨h3, t3, ht3, hr3, hv3⟩ := tableRows_spec (tableData m) 0 h2
  constructor
  · exact inv_setY h3 (by have := h3.ylb; linarith)
  · obtain ⟨t1, ht1, hr1⟩ := e1
    refine ⟨t1 ++ t3, ?_, ?_, ?_⟩
    · show (tableRows (tableData m) 0
          (setFontSize 10 (addSectionHeader "Inspection Details" s))).trace = _
      rw [ht3, setFontSize_trace, ht1, List.append_assoc]
    · intro e hmem
      rcases List.mem_append.1 hmem with hmem | hmem
      exacts [hr1 e hmem, hr3 e hmem]
    · intro r hr
      obtain ⟨e, hmem, hprop⟩ := hv3 r hr
      exact ⟨e, List.mem_append_right _ hmem, hprop⟩

lemma disclaimerBlock_spec (env : Env) (m : ReportMetadata) {s : DocState} (h : Inv s) :
    Inv (disclaimerBlock env m s) ∧
    ∃ t, (disclaimerBlock env m s).trace = s.trace ++ t ∧ ∀ e ∈ t, inRange e := by
  obtain ⟨h1, e1⟩ := inv_addSectionHeader "General Disclaimer" h
  have hbody : Inv (if m.disclaimer = "" then addSectionHeader "General Disclaimer" s else
        setTextColor (0, 0, 0) (writeLines 5 ((9 : ℚ) / 2)
          (env.split m.disclaimer contentWidth) (setTextColor (80, 80, 80)
            (setFontBold false (setFontSize 9 (addSectionHeader "General Disclaimer" s)))))) ∧
      ∃ t, (if m.disclaimer = "" then addSectionHeader "General Disclaimer" s else
        setTextColor (0, 0, 0) (writeLines 5 ((9 : ℚ) / 2)
          (env.split m.disclaimer contentWidth) (setTextColor (80, 80, 80)
            (setFontBold false (setFontSize 9 (addSectionHeader "General Disclaimer" s)))))).trace =
        (addSectionHeader "General Disclaimer" s).trace ++ t ∧ ∀ e ∈ t, inRange e := by
    split
    · exact ⟨h1, extP_of_eq rfl⟩
    · have h2 : Inv (setTextColor (80, 80, 80) (setFontBold false
          (setFontSize 9 (addSectionHeader "General Disclaimer" s)))) :=
        inv_setTextColor (inv_setFontBold (inv_setFontSize h1 9) false) _
      obtain ⟨h3, t3, ht3, hr3⟩ := writeLines_inv 5 ((9 : ℚ) / 2) (by norm_num)
        (by norm_num [margin, pageHeight]) (by norm_num)
        (env.split m.disclaimer contentWidth) h2
      exact ⟨inv_setTextColor h3 _, t3, by simpa using ht3, hr3⟩
  constructor
  · exact inv_setY hbody.1 (by have := hbody.1.ylb; linarith)
  · exact extP_trans e1 (extP_trans hbody.2 (extP_of_eq rfl))

lemma defectHeader_eq (i : Nat) (ty suf : String) (s : DocState) :
    defectHeader i ty suf s =
      { s with
          fontSize := 11, bold := true, textColor := (0, 0, 0),
          yPos := s.yPos + 8,
          trace := s.trace ++ [⟨Op.text ("Defect #" ++ toString (i + 1) ++ ": " ++ ty ++ suf)
            margin s.yPos 11 true (44, 82, 130) Align.left, s.current, s.yPos, s.pageCount⟩] } :=
  rfl

lemma inv_defectHeader (i : Nat) (ty suf : String) {s : DocState} (h : Inv s) :
    Inv (defectHeader i ty suf s) := by
  unfold defectHeader
  apply inv_setY
  · exact inv_setTextColor (inv_drawText_left (inv_setTextColor
      (inv_setFontBold (inv_setFontSize h 11) true) _) _ _ _) _
  · simp
    linarith [h.ylb]

lemma defectImage_none_eq (i : Nat) (d : DefectRecord) (s : DocState) (hd : d.dims = none) :
    defectImage i d s =
      { s with
          fontSize := 10, textColor := (0, 0, 0), yPos := s.yPos + 8,
          trace := s.trace ++ [⟨Op.text "[Image could not be loaded]" margin s.yPos 10 s.bold
            (150, 0, 0) Align.left, s.current, s.yPos, s.pageCount⟩] } := by
  unfold defectImage
  rw [hd]
  rfl

lemma defectImage_some_fit (i : Nat) (d : DefectRecord) (s : DocState) (w h : ℚ)
    (hd : d.dims = some (w, h))
    (hfit : ¬(s.yPos + h * imgScaleFactor contentWidth 80 w h + 20 > pageHeight - margin)) :
    defectImage i d s = { s with
      yPos := s.yPos + h * imgScaleFactor contentWidth 80 w h + 5,
      trace := s.trace ++ [⟨Op.image "JPEG" margin s.yPos
        (w * imgScaleFactor contentWidth 80 w h) (h * imgScaleFactor contentWidth 80 w h),
        s.current, s.yPos, s.pageCount⟩] } := by
  unfold defectImage
  rw [hd]
  simp only [if_neg hfit]
  rfl

lemma defectImage_some_break (i : Nat) (d : DefectRecord) (s : DocState) (w h : ℚ)
    (hd : d.dims = some (w, h))
    (hbr : s.yPos + h * imgScaleFactor contentWidth 80 w h + 20 > pageHeight - margin) :
    defectImage i d s = { s with
      pageCount := s.pageCount + 1, current := s.pageCount + 1,
      fontSize := 11, bold := true, textColor := (0, 0, 0),
      yPos := margin + 8 + h * imgScaleFactor contentWidth 80 w h + 5,
      trace := s.trace ++
        [⟨Op.text ("Defect #" ++ toString (i + 1) ++ ": " ++ d.defectType ++ " (continued)")
            margin margin 11 true (44, 82, 130) Align.left,
          s.pageCount + 1, margin, s.pageCount + 1⟩,
         ⟨Op.image "JPEG" margin (margin + 8) (w * imgScaleFactor contentWidth 80 w h)
            (h * imgScaleFactor contentWidth 80 w h),
          s.pageCount + 1, margin + 8, s.pageCount + 1⟩] } := by
  unfold defectImage
  rw [hd]
  simp only [if_pos hbr, defectHeader_eq]
  simp [List.append_assoc]

lemma scaledHeight_bounds {w h : ℚ} (hw : 0 ≤ w) (hh : 0 ≤ h) :
    0 ≤ h * imgScaleFactor contentWidth 80 w h ∧ h * imgScaleFactor contentWidth 80 w h ≤ 80 := by
  have hr0 : 0 ≤ imgScaleFactor contentWidth 80 w h := by
    apply le_min
    · exact div_nonneg (by norm_num [contentWidth, pageWidth, margin]) hw
    · exact div_nonneg (by norm_num) hh
  constructor
  · exact mul_nonneg hh hr0
  · rcases eq_or_lt_of_le hh with hh0 | hh0
    · rw [← hh0]
      norm_num
    · have hr1 : imgScaleFactor contentWidth 80 w h ≤ 80 / h := min_le_right _ _
      calc h * imgScaleFactor contentWidth 80 w h ≤ h * (80 / h) :=
            mul_le_mul_of_nonneg_left hr1 hh
        _ = 80 := by field_simp

lemma inv_defectImage (i : Nat) (d : DefectRecord) {s : DocState} (h : Inv s)
    (hd : dimsOK d = true) (hy : s.yPos ≤ pageHeight - margin) :
    Inv (defectImage i d s) ∧
    ∃ t, (defectImage i d s).trace = s.trace ++ t ∧ ∀ e ∈ t, inRange e := by
  match hdims : d.dims with
  | none =>
    constructor
    · unfold defectImage
      rw [hdims]
      apply inv_setY
      · exact inv_setTextColor (inv_drawText_left (inv_setTextColor
          (inv_setFontSize h 10) _) _ _ _) _
      · simp
        linarith [h.ylb]
    · rw [defectImage_none_eq i d s hdims]
      refine ⟨_, rfl, ?_⟩
      intro e he
      simp only [List.mem_cons, List.not_mem_nil, or_false] at he
      rcases he with rfl
      exact ⟨h.ylb, hy⟩
  | some (w, hh) =>
    have hwh : 0 ≤ w ∧ 0 ≤ hh := by
      rw [dimsOK, hdims] at hd
      simpa using hd
    obtain ⟨hsh0, hsh80⟩ := scaledHeight_bounds hwh.1 hwh.2
    by_cases hbr : s.yPos + hh * imgScaleFactor contentWidth 80 w hh + 20 > pageHeight - margin
    · rw [defectImage_some_break i d s w hh hdims hbr]
      constructor
      · refine ⟨rfl, h.one_le.trans (Nat.le_succ _), ?_, ?_, ?_⟩
        · intro e he
          rcases List.mem_append.1 he with he | he
          · exact entryOK_mono (Nat.le_succ _) (h.entries e he)
          · simp only [List.mem_cons, List.not_mem_nil, or_false] at he
            rcases he with rfl | rfl
            · exact ⟨le_refl _, le_refl _, by simp [isPageNumPos], by simp [isTsPos],
                by intro _ _ _ _ _ hq; cases hq⟩
            · exact ⟨le_refl _, le_refl _, by simp [isPageNumPos], by simp [isTsPos],
                by intro _ _ _ _ _ hq; cases hq; rfl⟩
        · refine List.pairwise_append.2 ⟨h.mono, ?_, ?_⟩
          · simp
          · intro a ha b hb
            have hale := (h.entries a ha).2.1
            simp only [List.mem_cons, List.not_mem_nil, or_false] at hb
            rcases hb with rfl | rfl <;> · show a.pagesAt ≤ s.pageCount + 1; omega
        · show margin ≤ margin + 8 + hh * imgScaleFactor contentWidth 80 w hh + 5
          linarith
      · refine ⟨_, rfl, ?_⟩
        intro e he
        simp only [List.mem_cons, List.not_mem_nil, or_false] at he
        have hm8 : margin + 8 ≤ pageHeight - margin := by norm_num [margin, pageHeight]
        rcases he with rfl | rfl
        · refine ⟨by simp, ?_⟩
          show (margin : ℚ) ≤ pageHeight - margin
          norm_num [margin, pageHeight]
        · refine ⟨?_, by simpa using hm8⟩
          show (margin : ℚ) ≤ margin + 8
          norm_num
    · rw [defectImage_some_fit i d s w hh hdims hbr]
      constructor
      · have himg : Inv (drawImage "JPEG" margin s.yPos
            (w * imgScaleFactor contentWidth 80 w hh)
            (hh * imgScaleFactor contentWidth 80 w hh) s) := inv_drawImage h _ _ _ _
        exact inv_setY himg (by linarith [h.ylb, hsh0])
      · refine ⟨_, rfl, ?_⟩
        intro e he
        simp only [List.mem_cons, List.not_mem_nil, or_false] at he
        rcases he with rfl
        push_neg at hbr
        exact ⟨h.ylb, by linarith⟩

lemma inv_defectSep {s : DocState} (h : Inv s) :
    Inv (defectSep s) ∧ ∃ t, (defectSep s).trace = s.trace ++ t ∧ ∀ e ∈ t, inRange e := by
  have h0 : Inv (checkNewPage 15 s).2 := inv_checkNewPage h 15
  have hub : (checkNewPage 15 s).2.yPos + 15 ≤ pageHeight - margin :=
    checkNewPage_yub 15 (by norm_num [margin, pageHeight])
  have hlb := h0.ylb
  constructor
  · unfold defectSep
    apply inv_setY
    · exact inv_drawLine (inv_setLineWidth (inv_setDrawColor h0 _) _) _ _ _ _
    · simp
      linarith
  · refine ⟨[⟨Op.line margin (checkNewPage 15 s).2.yPos (pageWidth - margin)
        (checkNewPage 15 s).2.yPos (220, 220, 220) ((3 : ℚ) / 10),
        (checkNewPage 15 s).2.current, (checkNewPage 15 s).2.yPos,
        (checkNewPage 15 s).2.pageCount⟩], ?_, ?_⟩
    · unfold defectSep
      simp [checkNewPage_trace]
    · intro e he
      simp only [List.mem_cons, List.not_mem_nil, or_false] at he
      rcases he with rfl
      exact ⟨hlb, by linarith⟩

lemma invExt_ite (c : Prop) [Decidable c] {f : DocState → DocState} {s : DocState}
    (hs : Inv s)
    (hf : Inv (f s) ∧ ∃ t, (f s).trace = s.trace ++ t ∧ ∀ e ∈ t, inRange e) :
    Inv (if c then f s else s) ∧
      ∃ t, (if c then f s else s).trace = s.trace ++ t ∧ ∀ e ∈ t, inRange e := by
  split
  · exact hf
  · exact ⟨hs, extP_of_eq rfl⟩

lemma checkNewPage_noBreak {r : ℚ} {s : DocState} (hc : s.yPos + r ≤ pageHeight - margin) :
    (checkNewPage r s).2 = s := by
  unfold checkNewPage
  rw [if_neg (not_lt.2 hc)]

lemma inv_processDefect (env : Env) (total i : Nat) (d : DefectRecord) {s : DocState}
    (h : Inv s) (hd : dimsOK d = true) :
    Inv (processDefect env total i d s) ∧
    ∃ t, (processDefect env total i d s).trace = s.trace ++ t ∧ (∀ e ∈ t, inRange e) ∧
      ∃ e ∈ t, e.op = Op.text ("Defect #" ++ toString (i + 1) ++ ": " ++ d.defectType)
        margin e.yAt 11 true (44, 82, 130) Align.left := by
  unfold processDefect
  have hc : Inv (checkNewPage 100 s).2 := inv_checkNewPage h 100
  have hcyub : (checkNewPage 100 s).2.yPos + 100 ≤ pageHeight - margin :=
    checkNewPage_yub 100 (by norm_num [margin, pageHeight])
  have hctr : (checkNewPage 100 s).2.trace = s.trace := checkNewPage_trace 100 s
  have hcylb := hc.ylb
  set c := (checkNewPage 100 s).2 with hcdef
  have hH : Inv (defectHeader i d.defectType "" c) := inv_defectHeader _ _ _ hc
  set sH := defectHeader i d.defectType "" c with hsH
  have hHtr : sH.trace = c.trace ++
      [⟨Op.text ("Defect #" ++ toString (i + 1) ++ ": " ++ d.defectType ++ "") margin c.yPos 11
        true (44, 82, 130) Align.left, c.current, c.yPos, c.pageCount⟩] := by
    rw [hsH, defectHeader_eq]
  have hHy : sH.yPos ≤ pageHeight - margin := by
    rw [hsH, defectHeader_eq]
    show c.yPos + 8 ≤ pageHeight - margin
    linarith
  obtain ⟨hI, tI, htI, hbI⟩ := inv_defectImage i d hH hd hHy
  set sI := defectImage i d sH with hsI
  have hF : Inv (setFontBold false (setFontSize 10 sI)) :=
    inv_setFontBold (inv_setFontSize hI 10) false
  set sF := setFontBold false (setFontSize 10 sI) with hsF
  have hFtr : sF.trace = sI.trace := by rw [hsF]; simp
  obtain ⟨hW, tW, htW, hbW⟩ := writeLines_inv 6 5 (by norm_num)
    (by norm_num [margin, pageHeight]) (by norm_num) (env.split d.description contentWidth) hF
  set sW := writeLines 6 5 (env.split d.description contentWidth) sF with hsW
  have hW' : Inv ({ sW with yPos := sW.yPos + 10 }) := inv_setY hW (by linarith [hW.ylb])
  obtain ⟨hRes, t4, ht4, hb4⟩ := invExt_ite (i < total - 1) hW' (inv_defectSep hW')
  refine ⟨hRes, ⟨Op.text ("Defect #" ++ toString (i + 1) ++ ": " ++ d.defectType ++ "")
      margin c.yPos 11 true (44, 82, 130) Align.left, c.current, c.yPos, c.pageCount⟩ ::
      (tI ++ (tW ++ t4)), ?_, ?_, ?_⟩
  · rw [ht4]
    show sW.trace ++ t4 = _
    rw [htW, hFtr, htI, hHtr, hctr]
    simp [List.append_assoc]
  · intro e he
    rcases List.mem_cons.1 he with rfl | he
    · exact ⟨hcylb, by show c.yPos ≤ pageHeight - margin; linarith⟩
    · rcases List.mem_append.1 he with he | he
      · exact hbI e he
      · rcases List.mem_append.1 he with he | he
        exacts [hbW e he, hb4 e he]
  · exact ⟨_, List.mem_cons_self _ _, by simp⟩

lemma defectsGo_spec (env : Env) (total : Nat) :
    ∀ (ds : List DefectRecord) (i : Nat) {s : DocState}, Inv s →
      (∀ d ∈ ds, dimsOK d = true) →
      Inv (defectsGo env total i ds s) ∧
      ∃ t, (defectsGo env total i ds s).trace = s.trace ++ t ∧ (∀ e ∈ t, inRange e) ∧
        ∀ j d, ds.get? j = some d → ∃ e ∈ t,
          e.op = Op.text ("Defect #" ++ toString (i + j + 1) ++ ": " ++ d.defectType)
            margin e.yAt 11 true (44, 82, 130) Align.left := by
  intro ds
  induction ds with
  | nil =>
    intro i s h _
    exact ⟨h, [], by simp [defectsGo], by simp, by intro j d hj; simp at hj⟩
  | cons d0 rest ih =>
    intro i s h hall
    obtain ⟨h1, t1, ht1, hb1, e1, he1, hop1⟩ :=
      inv_processDefect env total i d0 h (hall d0 (List.mem_cons_self _ _))
    obtain ⟨h2, t2, ht2, hb2, hhdr2⟩ := ih (i + 1) h1
      (fun d hd => hall d (List.mem_cons_of_mem _ hd))
    refine ⟨h2, t1 ++ t2, ?_, ?_, ?_⟩
    · show (defectsGo env total (i + 1) rest (processDefect env total i d0 s)).trace = _
      rw [ht2, ht1, List.append_assoc]
    · intro e he
      rcases List.mem_append.1 he with he | he
      exacts [hb1 e he, hb2 e he]
    · intro j d hj
      cases j with
      | zero =>
        have hd0 : d0 = d := by simpa using hj
        subst hd0
        exact ⟨e1, List.mem_append_left _ he1, by simpa using hop1⟩
      | succ j2 =>
        obtain ⟨e, he, hop⟩ := hhdr2 j2 d (by simpa using hj)
        refine ⟨e, List.mem_append_right _ he, ?_⟩
        have hidx : i + 1 + j2 + 1 = i + (j2 + 1) + 1 := by omega
        rw [hidx] at hop
        exact hop

lemma defectsSection_spec (env : Env) (defects : List DefectRecord) {s : DocState} (h : Inv s)
    (hall : ∀ d ∈ defects, dimsOK d = true) :
    Inv (defectsSection env defects s) ∧
    ∃ t, (defectsSection env defects s).trace = s.trace ++ t ∧ (∀ e ∈ t, inRange e) ∧
      (∀ j d, defects.get? j = some d → ∃ e ∈ t,
        e.op = Op.text ("Defect #" ++ toString (j + 1) ++ ": " ++ d.defectType)
          margin e.yAt 11 true (44, 82, 130) Align.left) ∧
      (defects ≠ [] → ∃ f rest2, t = f :: rest2 ∧ f.page = s.pageCount + 1) := by
  unfold defectsSection
  split
  · next hpos =>
    have hA : Inv ({ addPage s with yPos := margin }) := inv_setY (inv_addPage h) le_rfl
    set a := ({ addPage s with yPos := margin } : DocState) with hadef
    have hnb : (checkNewPage 20 a).2 = a := by
      apply checkNewPage_noBreak
      show a.yPos + 20 ≤ pageHeight - margin
      rw [hadef]
      show margin + 20 ≤ pageHeight - margin
      norm_num [margin, pageHeight]
    obtain ⟨hHdr, tH, htH, hbH⟩ :=
      inv_addSectionHeader ("Identified Defects (" ++ toString defects.length ++ " Total)") hA
    obtain ⟨hGo, tG, htG, hbG, hhdrs⟩ :=
      defectsGo_spec env defects.length defects 0 hHdr hall
    have htH2 := addSectionHeader_trace
      ("Identified Defects (" ++ toString defects.length ++ " Total)") a
    rw [hnb] at htH2
    have htHeq : tH = [⟨Op.rect margin a.yPos contentWidth 10 (240, 240, 240),
        a.current, a.yPos + 5, a.pageCount⟩,
      ⟨Op.text ("Identified Defects (" ++ toString defects.length ++ " Total)")
          (margin + 3) (a.yPos + 5 + 2) 12 true (30, 30, 30) Align.left,
        a.current, a.yPos + 5, a.pageCount⟩] :=
      List.append_cancel_left (htH.symm.trans htH2)
    refine ⟨hGo, tH ++ tG, ?_, ?_, ?_, ?_⟩
    · rw [htG, htH, hadef]
      simp [List.append_assoc]
    · intro e he
      rcases List.mem_append.1 he with he | he
      exacts [hbH e he, hbG e he]
    · intro j d hj
      obtain ⟨e, he, hop⟩ := hhdrs j d hj
      refine ⟨e, List.mem_append_right _ he, ?_⟩
      have hidx : 0 + j + 1 = j + 1 := by omega
      rw [hidx] at hop
      exact hop
    · intro _
      refine ⟨_, _, by rw [htHeq]; rfl, ?_⟩
      show a.current = s.pageCount + 1
      rw [hadef]
      rfl
  · next hpos =>
    have hempty : defects = [] := by
      rcases defects with _ | ⟨d, rest⟩
      · rfl
      · exact absurd (by simp) hpos
    refine ⟨h, [], by simp, by simp, ?_, ?_⟩
    · intro j d hj
      rw [hempty] at hj
      simp at hj
    · intro hne
      exact absurd hempty hne

lemma stampOnePage_trace (env : Env) (total i : Nat) (s : DocState) :
    (stampOnePage env total i s).trace = s.trace ++ footPair env total i s.yPos s.pageCount := by
  unfold stampOnePage footPair
  simp [List.append_assoc]

lemma stampOnePage_pageCount (env : Env) (total i : Nat) (s : DocState) :
    (stampOnePage env total i s).pageCount = s.pageCount := rfl

lemma stampOnePage_yPos (env : Env) (total i : Nat) (s : DocState) :
    (stampOnePage env total i s).yPos = s.yPos := rfl

lemma stampLoop_spec (env : Env) (total : Nat) :
    ∀ (js : List Nat) (s : DocState),
      (js.foldl (fun s j => stampOnePage env total (j + 1) s) s).trace =
        s.trace ++ (js.map (fun j => footPair env total (j + 1) s.yPos s.pageCount)).join ∧
      (js.foldl (fun s j => stampOnePage env total (j + 1) s) s).pageCount = s.pageCount ∧
      (js.foldl (fun s j => stampOnePage env total (j + 1) s) s).yPos = s.yPos := by
  intro js
  induction js with
  | nil => intro s; exact ⟨by simp, rfl, rfl⟩
  | cons j0 rest ih =>
    intro s
    obtain ⟨htr, hpc, hy⟩ := ih (stampOnePage env total (j0 + 1) s)
    refine ⟨?_, ?_, ?_⟩
    · show (rest.foldl _ (stampOnePage env total (j0 + 1) s)).trace = _
      rw [htr, stampOnePage_trace, stampOnePage_yPos, stampOnePage_pageCount,
        List.append_assoc]
      rfl
    · show (rest.foldl _ (stampOnePage env total (j0 + 1) s)).pageCount = _
      rw [hpc, stampOnePage_pageCount]
    · show (rest.foldl _ (stampOnePage env total (j0 + 1) s)).yPos = _
      rw [hy, stampOnePage_yPos]

lemma footPair_page (env : Env) (total i : Nat) (y : ℚ) (pc : Nat) :
    ∀ e ∈ footPair env total i y pc, e.page = i := by
  intro e he
  simp only [footPair, List.mem_cons, List.not_mem_nil, or_false] at he
  rcases he with rfl | rfl <;> rfl

lemma footJoin_filter (env : Env) (total : Nat) (y : ℚ) (pc : Nat) :
    ∀ (js : List Nat), js.Nodup → ∀ i : Nat, 0 < i →
      ((js.map (fun j => footPair env total (j + 1) y pc)).join.filter
          (fun e => e.page == i)) =
        if i - 1 ∈ js then footPair env total i y pc else [] := by
  intro js
  induction js with
  | nil => intro _ i _; simp
  | cons j0 rest ih =>
    intro hnd i hi
    have hnd2 := (List.nodup_cons.1 hnd).2
    have hj0 := (List.nodup_cons.1 hnd).1
    simp only [List.map_cons, List.join_cons, List.filter_append]
    by_cases hji : j0 = i - 1
    · subst hji
      have hpage : i - 1 + 1 = i := by omega
      rw [hpage]
      have hfil1 : (footPair env total i y pc).filter (fun e => e.page == i) =
          footPair env total i y pc := by
        apply List.filter_eq_self.2
        intro e he
        rw [footPair_page env total i y pc e he]
        exact beq_self_eq_true i
      have hfil2 : ((rest.map (fun j => footPair env total (j + 1) y pc)).join.filter
          (fun e => e.page == i)) = [] := by
        rw [ih hnd2 i hi]
        simp [hj0]
      rw [hfil1, hfil2]
      simp
    · have hne : j0 + 1 ≠ i := by omega
      have hfil1 : (footPair env total (j0 + 1) y pc).filter (fun e => e.page == i) = [] := by
        apply List.filter_eq_nil.2
        intro e he
        rw [footPair_page env total (j0 + 1) y pc e he]
        simp [hne]
      rw [hfil1, ih hnd2 i hi]
      simp [Ne.symm hji]

lemma filter_map_op (p : Op → Bool) (l : List Emit) :
    ((l.map (fun e => e.op)).filter p) = ((l.filter (fun e => p e.op)).map (fun e => e.op)) := by
  induction l with
  | nil => rfl
  | cons e rest ih =>
    by_cases hp : p e.op
    · simp [hp, ih]
    · simp [hp, ih]

lemma stampFooters_spec (env : Env) {s : DocState} (h : Inv s) (i : Nat) (h1 : 1 ≤ i)
    (h2 : i ≤ s.pageCount) :
    (pageOps (stampFooters env s) i).filter isPageNumPos =
      [Op.text (pageStampStr i s.pageCount) (pageWidth / 2) (pageHeight - 10) 8 false
        (150, 150, 150) Align.center] ∧
    (pageOps (stampFooters env s) i).filter isTsPos =
      [Op.text ("Report generated: " ++ env.footClock (i - 1)) (pageWidth / 2) (pageHeight - 6) 8
        false (150, 150, 150) Align.center] ∧
    (stampFooters env s).pageCount = s.pageCount := by
  obtain ⟨htr, hpc, _⟩ := stampLoop_spec env s.pageCount (List.range s.pageCount) s
  have hmem : i - 1 ∈ List.range s.pageCount := by
    rw [List.mem_range]
    omega
  have hjoin := footJoin_filter env s.pageCount s.yPos s.pageCount (List.range s.pageCount)
    (List.nodup_range _) i (by omega)
  rw [if_pos hmem] at hjoin
  have hpageOps : pageOps (stampFooters env s) i =
      ((s.trace.filter (fun e => e.page == i)).map (fun e => e.op)) ++
        (footPair env s.pageCount i s.yPos s.pageCount).map (fun e => e.op) := by
    unfold pageOps
    rw [show (stampFooters env s).trace = s.trace ++
        ((List.range s.pageCount).map
          (fun j => footPair env s.pageCount (j + 1) s.yPos s.pageCount)).join from htr]
    rw [List.filter_append, hjoin, List.map_append]
  have hbodyPageNum : ((s.trace.filter (fun e => e.page == i)).map (fun e => e.op)).filter
      isPageNumPos = [] := by
    rw [filter_map_op]
    have : (s.trace.filter (fun e => e.page == i)).filter (fun e => isPageNumPos e.op) = [] := by
      apply List.filter_eq_nil.2
      intro e he
      have hmem2 := List.mem_filter.1 he
      rw [(h.entries e hmem2.1).2.2.1]
      simp
    rw [this]
    rfl
  have hbodyTs : ((s.trace.filter (fun e => e.page == i)).map (fun e => e.op)).filter
      isTsPos = [] := by
    rw [filter_map_op]
    have : (s.trace.filter (fun e => e.page == i)).filter (fun e => isTsPos e.op) = [] := by
      apply List.filter_eq_nil.2
      intro e he
      have hmem2 := List.mem_filter.1 he
      rw [(h.entries e hmem2.1).2.2.2.1]
      simp
    rw [this]
    rfl
  have hfootPageNum : ((footPair env s.pageCount i s.yPos s.pageCount).map
      (fun e => e.op)).filter isPageNumPos =
      [Op.text (pageStampStr i s.pageCount) (pageWidth / 2) (pageHeight - 10) 8 false
        (150, 150, 150) Align.center] := by
    unfold footPair
    simp [isPageNumPos]
  have hfootTs : ((footPair env s.pageCount i s.yPos s.pageCount).map
      (fun e => e.op)).filter isTsPos =
      [Op.text ("Report generated: " ++ env.footClock (i - 1)) (pageWidth / 2) (pageHeight - 6) 8
        false (150, 150, 150) Align.center] := by
    unfold footPair
    simp [isTsPos]
  refine ⟨?_, ?_, hpc⟩
  · rw [hpageOps, List.filter_append, hbodyPageNum, hfootPageNum]
    rfl
  · rw [hpageOps, List.filter_append, hbodyTs, hfootTs]
    rfl

lemma inv_initState : Inv initState := by
  refine ⟨rfl, le_refl _, ?_, ?_, le_refl _⟩
  · intro e he
    simp [initState] at he
  · simp [initState]

lemma bodyInv (env : Env) (m : ReportMetadata) : Inv (bodyState env m) :=
  (disclaimerBlock_spec env m
    ((tableBlock_spec m (inv_detailsBlock env m (inv_headerBlock_init m))).1)).1

lemma preFooterInv (env : Env) (m : ReportMetadata) (defects : List DefectRecord)
    (hall : ∀ d ∈ defects, dimsOK d = true) :
    Inv (defectsSection env defects (bodyState env m)) :=
  (defectsSection_spec env defects (bodyInv env m) hall).1

lemma stampFooters_pageCount (env : Env) (s : DocState) :
    (stampFooters env s).pageCount = s.pageCount :=
  (stampLoop_spec env s.pageCount (List.range s.pageCount) s).2.1

lemma generate_pageCount (env : Env) (m : ReportMetadata) (defects : List DefectRecord) :
    (generate env m defects).pageCount =
      (defectsSection env defects (bodyState env m)).pageCount :=
  stampFooters_pageCount env _

/-! ## Claim theorems -/

/-- C4: `checkNewPage(requiredSpace)` (the spec's `ensureSpace`) allocates a
new page, resets the cursor to the margin and returns true exactly when
`yPos + requiredSpace > pageHeight - margin`; otherwise it returns false and
leaves the state untouched.  The two record equations show there are no side
effects beyond page allocation (page count and current page) and the cursor
reset. -/
theorem c4_checkNewPage (requiredSpace : ℚ) (s : DocState) :
    (pageHeight - margin < s.yPos + requiredSpace →
      checkNewPage requiredSpace s =
        (true, { s with pageCount := s.pageCount + 1, current := s.pageCount + 1,
                        yPos := margin })) ∧
    (s.yPos + requiredSpace ≤ pageHeight - margin →
      checkNewPage requiredSpace s = (false, s)) := by
  constructor
  · intro hlt
    unfold checkNewPage
    rw [if_pos hlt]
    rfl
  · intro hle
    unfold checkNewPage
    rw [if_neg (not_lt.2 hle)]

/-- C6: the image scaling of the defect loop uses exactly
`ratio = min(maxWidth / w, maxHeight / h)`; the placed size `(w*r, h*r)` fits
the box and preserves the aspect ratio, and the ratio may exceed 1 (a 1x1
image in the fixed `contentWidth x 80` box upscales by 80). -/
theorem c6_imgScale (w h W H : ℚ) (hw : 0 < w) (hh : 0 < h) (hW : 0 < W) (hH : 0 < H) :
    0 < imgScaleFactor W H w h ∧
    w * imgScaleFactor W H w h ≤ W ∧
    h * imgScaleFactor W H w h ≤ H ∧
    (w * imgScaleFactor W H w h) / (h * imgScaleFactor W H w h) = w / h ∧
    (imgScaleFactor W H w h = W / w ∨ imgScaleFactor W H w h = H / h) ∧
    1 < imgScaleFactor contentWidth 80 1 1 := by
  have hr : 0 < imgScaleFactor W H w h :=
    lt_min (div_pos hW hw) (div_pos hH hh)
  refine ⟨hr, ?_, ?_, ?_, min_choice _ _, ?_⟩
  · have h1 : imgScaleFactor W H w h ≤ W / w := min_le_left _ _
    calc w * imgScaleFactor W H w h ≤ w * (W / w) := mul_le_mul_of_nonneg_left h1 hw.le
      _ = W := by field_simp
  · have h1 : imgScaleFactor W H w h ≤ H / h := min_le_right _ _
    calc h * imgScaleFactor W H w h ≤ h * (H / h) := mul_le_mul_of_nonneg_left h1 hh.le
      _ = H := by field_simp
  · rw [mul_comm w _, mul_comm h _]
    exact mul_div_mul_left _ _ (ne_of_gt hr)
  · norm_num [imgScaleFactor, contentWidth, pageWidth, margin]

/-- C8: when placing a decodable defect image, if
`yPos + scaledHeight + 20 > pageHeight - margin` the source starts a new
page, reprints the defect heading with the `' (continued)'` suffix and only
then draws the image on the fresh page; otherwise the image is drawn in
place with no page break.  In both cases the cursor then advances by
`scaledHeight + 5`.  The record equations exhibit the full effect. -/
theorem c8_imagePageFit (i : Nat) (d : DefectRecord) (s : DocState) (w h : ℚ)
    (hd : d.dims = some (w, h)) :
    (pageHeight - margin < s.yPos + h * imgScaleFactor contentWidth 80 w h + 20 →
      defectImage i d s = { s with
        pageCount := s.pageCount + 1, current := s.pageCount + 1,
        fontSize := 11, bold := true, textColor := (0, 0, 0),
        yPos := margin + 8 + h * imgScaleFactor contentWidth 80 w h + 5,
        trace := s.trace ++
          [⟨Op.text ("Defect #" ++ toString (i + 1) ++ ": " ++ d.defectType ++ " (continued)")
              margin margin 11 true (44, 82, 130) Align.left,
            s.pageCount + 1, margin, s.pageCount + 1⟩,
           ⟨Op.image "JPEG" margin (margin + 8) (w * imgScaleFactor contentWidth 80 w h)
              (h * imgScaleFactor contentWidth 80 w h),
            s.pageCount + 1, margin + 8, s.pageCount + 1⟩] }) ∧
    (s.yPos + h * imgScaleFactor contentWidth 80 w h + 20 ≤ pageHeight - margin →
      defectImage i d s = { s with
        yPos := s.yPos + h * imgScaleFactor contentWidth 80 w h + 5,
        trace := s.trace ++ [⟨Op.image "JPEG" margin s.yPos
          (w * imgScaleFactor contentWidth 80 w h) (h * imgScaleFactor contentWidth 80 w h),
          s.current, s.yPos, s.pageCount⟩] }) :=
  ⟨fun hbr => defectImage_some_break i d s w h hd hbr,
   fun hfit => defectImage_some_fit i d s w h hd (not_lt.2 hfit)⟩

lemma unbFold_trace (lh : ℚ) :
    ∀ (lines : List String) (s : DocState),
      ∃ t, (lines.foldl (fun s line =>
          { drawText line margin s.yPos Align.left s with
              yPos := (drawText line margin s.yPos Align.left s).yPos + lh }) s).trace =
        s.trace ++ t ∧ t.map (fun e => opStr e.op) = lines.map (fun l => some l) := by
  intro lines
  induction lines with
  | nil => intro s; exact ⟨[], by simp, by simp⟩
  | cons l ls ih =>
    intro s
    obtain ⟨t, ht, hm⟩ := ih _
    refine ⟨⟨Op.text l margin s.yPos s.fontSize s.bold s.textColor Align.left,
        s.current, s.yPos, s.pageCount⟩ :: t, ?_, by rw [List.map_cons, hm, List.map_cons]; rfl⟩
    rw [List.foldl_cons, ht]
    simp

/-- C9: the sequence of wrapped lines `addText` writes is independent of
pagination: the text content of its writes equals, line by line, what the
unbounded-page variant writes, and both equal the single wrap
`splitTextToSize(content, contentWidth)` computed up front - page breaks
never drop, duplicate or re-wrap a line. -/
theorem c9_addText_noLoss (env : Env) (content : String) (fontSize : ℚ) (isBold : Bool)
    (s : DocState) :
    (newTrace (addText env content fontSize isBold) s).map (fun e => opStr e.op) =
      (newTrace (addTextUnbounded env content fontSize isBold) s).map (fun e => opStr e.op) ∧
    (newTrace (addText env content fontSize isBold) s).map (fun e => opStr e.op) =
      (env.split content contentWidth).map (fun l => some l) := by
  obtain ⟨t1, ht1, hm1⟩ := writeLines_trace (fontSize * ((1 : ℚ) / 2) + 2)
    (fontSize * ((1 : ℚ) / 2)) (env.split content contentWidth)
    (setFontBold isBold (setFontSize fontSize s))
  have htr1 : (addText env content fontSize isBold s).trace = s.trace ++ t1 := by
    show (writeLines (fontSize * ((1 : ℚ) / 2) + 2) (fontSize * ((1 : ℚ) / 2))
      (env.split content contentWidth) (setFontBold isBold (setFontSize fontSize s))).trace = _
    rw [ht1]
    simp
  obtain ⟨t2, ht2, hm2⟩ := unbFold_trace (fontSize * ((1 : ℚ) / 2))
    (env.split content contentWidth) (setFontBold isBold (setFontSize fontSize s))
  have htr2 : (addTextUnbounded env content fontSize isBold s).trace = s.trace ++ t2 := by
    show ((env.split content contentWidth).foldl _
      (setFontBold isBold (setFontSize fontSize s))).trace = _
    rw [ht2]
    simp
  rw [newTrace_eq htr1, newTrace_eq htr2, hm1, hm2]
  exact ⟨rfl, rfl⟩

lemma generate_trace_split (env : Env) (m : ReportMetadata) (defects : List DefectRecord) :
    (generate env m defects).trace =
      (defectsSection env defects (bodyState env m)).trace ++
        ((List.range (defectsSection env defects (bodyState env m)).pageCount).map
          (fun j => footPair env (defectsSection env defects (bodyState env m)).pageCount (j + 1)
            (defectsSection env defects (bodyState env m)).yPos
            (defectsSection env defects (bodyState env m)).pageCount)).join :=
  (stampLoop_spec env _ _ _).1

/-- C3: a defect whose image payload cannot be decoded degrades gracefully.
First conjunct: the catch branch replaces the image with the single
`'[Image could not be loaded]'` notice in the error text color (150, 0, 0)
and advances the cursor by exactly 8 units, changing nothing else.  Second
conjunct: every defect of the list - in particular every defect after a bad
one - still gets its heading written in the produced document.  Third
conjunct: every page of the finished document still carries its page-number
footer stamp.  The run is a total function, so it always completes. -/
theorem c3_badImageGraceful (env : Env) :
    (∀ (i : Nat) (d : DefectRecord) (s : DocState), d.dims = none →
      defectImage i d s =
        { s with
            fontSize := 10, textColor := (0, 0, 0), yPos := s.yPos + 8,
            trace := s.trace ++ [⟨Op.text "[Image could not be loaded]" margin s.yPos 10 s.bold
              (150, 0, 0) Align.left, s.current, s.yPos, s.pageCount⟩] }) ∧
    (∀ (m : ReportMetadata) (defects : List DefectRecord),
      (∀ d ∈ defects, dimsOK d = true) → ∀ (j : Nat) (d : DefectRecord),
      defects.get? j = some d →
      ∃ e ∈ (generate env m defects).trace,
        e.op = Op.text ("Defect #" ++ toString (j + 1) ++ ": " ++ d.defectType)
          margin e.yAt 11 true (44, 82, 130) Align.left) ∧
    (∀ (m : ReportMetadata) (defects : List DefectRecord),
      (∀ d ∈ defects, dimsOK d = true) →
      ∀ i : Nat, 1 ≤ i → i ≤ (generate env m defects).pageCount →
      ∃ e ∈ (generate env m defects).trace,
        e.op = Op.text (pageStampStr i (generate env m defects).pageCount) (pageWidth / 2)
          (pageHeight - 10) 8 false (150, 150, 150) Align.center ∧ e.page = i) := by
  refine ⟨fun i d s hd => defectImage_none_eq i d s hd, ?_, ?_⟩
  · intro m defects hall j d hj
    obtain ⟨_, t, ht, _, hhdrs, _⟩ := defectsSection_spec env defects (bodyInv env m) hall
    obtain ⟨e, he, hop⟩ := hhdrs j d hj
    refine ⟨e, ?_, hop⟩
    rw [generate_trace_split, ht]
    exact List.mem_append_left _ (List.mem_append_right _ he)
  · intro m defects hall i h1 h2
    have hinv := preFooterInv env m defects hall
    have h2' : i ≤ (defectsSection env defects (bodyState env m)).pageCount := by
      rw [generate_pageCount] at h2
      exact h2
    obtain ⟨hstamp, _, _⟩ := stampFooters_spec env hinv i h1 h2'
    have hmem : Op.text (pageStampStr i (defectsSection env defects (bodyState env m)).pageCount)
        (pageWidth / 2) (pageHeight - 10) 8 false (150, 150, 150) Align.center ∈
        (pageOps (stampFooters env (defectsSection env defects (bodyState env m))) i) := by
      have : Op.text (pageStampStr i (defectsSection env defects (bodyState env m)).pageCount)
          (pageWidth / 2) (pageHeight - 10) 8 false (150, 150, 150) Align.center ∈
          (pageOps (stampFooters env (defectsSection env defects (bodyState env m))) i).filter
            isPageNumPos := by
        rw [hstamp]
        exact List.mem_singleton_self _
      exact List.mem_of_mem_filter this
    unfold pageOps at hmem
    obtain ⟨e, he, hop⟩ := List.mem_map.1 hmem
    have he2 := List.mem_filter.1 he
    refine ⟨e, he2.1, ?_, by simpa using he2.2⟩
    rw [hop, generate_pageCount]

/-- C7: when the defect list is non-empty the defects section always begins
on a freshly allocated page - the first operation it emits lands on page
`pageCount + 1`, strictly above every page holding earlier content,
regardless of the space remaining; when the defect list is empty the section
is not emitted at all (the state is returned unchanged). -/
theorem c7_defectsFreshPage (env : Env) (m : ReportMetadata) (defects : List DefectRecord)
    (hall : ∀ d ∈ defects, dimsOK d = true) :
    (defects = [] → defectsSection env defects (bodyState env m) = bodyState env m) ∧
    (defects ≠ [] → ∃ f rest,
      newTrace (defectsSection env defects) (bodyState env m) = f :: rest ∧
      f.page = (bodyState env m).pageCount + 1 ∧
      ∀ e ∈ (bodyState env m).trace, e.page < f.page) := by
  constructor
  · intro hemp
    subst hemp
    simp [defectsSection]
  · intro hne
    obtain ⟨_, t, ht, _, _, hfresh⟩ := defectsSection_spec env defects (bodyInv env m) hall
    obtain ⟨f, rest, hcons, hpage⟩ := hfresh hne
    refine ⟨f, rest, ?_, hpage, ?_⟩
    · rw [newTrace_eq ht, hcons]
    · intro e he
      have := ((bodyInv env m).entries e he).1
      omega

/-- C10: every image embedded by a generation run carries the literal
`'JPEG'` format tag - `doc.addImage` is always called with `'JPEG'`, no
matter whether the accepted payload was a JPEG or a PNG file. -/
theorem c10_alwaysJpeg (env : Env) (m : ReportMetadata) (defects : List DefectRecord)
    (hall : ∀ d ∈ defects, dimsOK d = true) :
    ∀ e ∈ (generate env m defects).trace, ∀ fmt x y w h,
      e.op = Op.image fmt x y w h → fmt = "JPEG" := by
  intro e he fmt x y w h hop
  rw [generate_trace_split] at he
  rcases List.mem_append.1 he with he | he
  · exact ((preFooterInv env m defects hall).entries e he).2.2.2.2 fmt x y w h hop
  · obtain ⟨l, hl, hel⟩ := List.mem_join.1 he
    obtain ⟨j, _, hj⟩ := List.mem_map.1 hl
    rw [← hj] at hel
    simp only [footPair, List.mem_cons, List.not_mem_nil, or_false] at hel
    rcases hel with rfl | rfl <;> simp at hop

/-- C1 amended: after finalization every page `i` carries exactly one
centered `Page i of N` stamp at the page-number footer position, with `i` its
1-based index and `N` the total page count; and exactly one timestamp footer
line - but the timestamp is captured per page, during page `i`'s iteration of
the footer loop (the `i - 1`-th wall-clock read), not once at finalize time:
page `i` shows `env.footClock (i - 1)`, so all pages show the same literal
string only when those per-page reads coincide. -/
theorem c1_amended (env : Env) (m : ReportMetadata) (defects : List DefectRecord)
    (hall : ∀ d ∈ defects, dimsOK d = true) (i : Nat) (h1 : 1 ≤ i)
    (h2 : i ≤ (generate env m defects).pageCount) :
    (pageOps (generate env m defects) i).filter isPageNumPos =
      [Op.text (pageStampStr i (generate env m defects).pageCount) (pageWidth / 2)
        (pageHeight - 10) 8 false (150, 150, 150) Align.center] ∧
    (pageOps (generate env m defects) i).filter isTsPos =
      [Op.text ("Report generated: " ++ env.footClock (i - 1)) (pageWidth / 2) (pageHeight - 6)
        8 false (150, 150, 150) Align.center] := by
  have hinv := preFooterInv env m defects hall
  have h2' : i ≤ (defectsSection env defects (bodyState env m)).pageCount := by
    rw [generate_pageCount] at h2
    exact h2
  obtain ⟨ha, hb, _⟩ := stampFooters_spec env hinv i h1 h2'
  constructor
  · rw [generate_pageCount]
    exact ha
  · exact hb

lemma footJoin_pagesAt (env : Env) (total : Nat) (y : ℚ) (pc : Nat) (js : List Nat) :
    ∀ e ∈ (js.map (fun j => footPair env total (j + 1) y pc)).join, e.pagesAt = pc := by
  intro e he
  obtain ⟨l, hl, hel⟩ := List.mem_join.1 he
  obtain ⟨j, _, hj⟩ := List.mem_map.1 hl
  rw [← hj] at hel
  simp only [footPair, List.mem_cons, List.not_mem_nil, or_false] at hel
  rcases hel with rfl | rfl <;> rfl

/-- C5 amended: the page count recorded along the trace never decreases
across a run, and every write performed by the `checkNewPage`-guarded
sections - the inspection-details table, the disclaimer body and the whole
defects section - happens with the cursor inside
`[margin, pageHeight - margin]`.  The claim's blanket cursor bound over every
write of the run is false: the unguarded Property & Client Details writes
can leave the range (see the counterexample). -/
theorem c5_amended (env : Env) (m : ReportMetadata) (defects : List DefectRecord)
    (hall : ∀ d ∈ defects, dimsOK d = true) :
    ((generate env m defects).trace.map (fun e => e.pagesAt)).Pairwise (· ≤ ·) ∧
    (∀ e ∈ newTrace (tableBlock m) (detailsBlock env m (headerBlock m initState)),
      margin ≤ e.yAt ∧ e.yAt ≤ pageHeight - margin) ∧
    (∀ e ∈ newTrace (disclaimerBlock env m)
        (tableBlock m (detailsBlock env m (headerBlock m initState))),
      margin ≤ e.yAt ∧ e.yAt ≤ pageHeight - margin) ∧
    (∀ e ∈ newTrace (defectsSection env defects) (bodyState env m),
      margin ≤ e.yAt ∧ e.yAt ≤ pageHeight - margin) := by
  have hinv := preFooterInv env m defects hall
  refine ⟨?_, ?_, ?_, ?_⟩
  · rw [generate_trace_split, List.map_append]
    refine List.pairwise_append.2 ⟨?_, ?_, ?_⟩
    · exact (List.pairwise_map).2 hinv.mono
    · apply List.pairwise_of_forall_mem_list
      intro a ha b hb
      obtain ⟨ea, hea, hja⟩ := List.mem_map.1 ha
      obtain ⟨eb, heb, hjb⟩ := List.mem_map.1 hb
      rw [← hja, ← hjb, footJoin_pagesAt _ _ _ _ _ ea hea, footJoin_pagesAt _ _ _ _ _ eb heb]
    · intro a ha b hb
      obtain ⟨ea, hea, hja⟩ := List.mem_map.1 ha
      obtain ⟨eb, heb, hjb⟩ := List.mem_map.1 hb
      rw [← hja, ← hjb, footJoin_pagesAt _ _ _ _ _ eb heb]
      exact (hinv.entries ea hea).2.1
  · have hdet : Inv (detailsBlock env m (headerBlock m initState)) :=
      inv_detailsBlock env m (inv_headerBlock_init m)
    obtain ⟨_, t, ht, hbnd, _⟩ := tableBlock_spec m hdet
    intro e he
    rw [newTrace_eq ht] at he
    exact hbnd e he
  · have htab : Inv (tableBlock m (detailsBlock env m (headerBlock m initState))) :=
      (tableBlock_spec m (inv_detailsBlock env m (inv_headerBlock_init m))).1
    obtain ⟨_, t, ht, hbnd⟩ := disclaimerBlock_spec env m htab
    intro e he
    rw [newTrace_eq ht] at he
    exact hbnd e he
  · obtain ⟨_, t, ht, hbnd, _, _⟩ := defectsSection_spec env defects (bodyInv env m) hall
    intro e he
    rw [newTrace_eq ht] at he
    exact hbnd e he

/-- C2 amended: absent metadata fields are omitted from the layout or
rendered as `'N/A'`, with two exceptions the claim does not allow: an absent
company name renders as `'Inspection Company'` and an absent report title as
`'Home Defect Inspection Report'` (the `strOr` defaults below).  Concretely:
with both contact fields absent the header emits only the (defaulted)
company name, the (defaulted) title and the rule - no contact line; a
Property & Client Details pair whose value is absent emits no label write at
its `x = margin` label position; the four inspection-details table values
render `'N/A'` when absent and each row's value is really written at the
value column; an absent disclaimer emits only the section header. -/
theorem c2_amended (env : Env) (m : ReportMetadata) (s : DocState) (hs : Inv s) :
    (m.companyPhone = "" → m.companyEmail = "" →
      (newTrace (headerBlock m) s).map (fun e => opStr e.op) =
        [some (strOr m.companyName "Inspection Company"),
         some (strOr m.reportTitle "Home Defect Inspection Report"), none]) ∧
    (m.clientName = "" →
      ∀ e ∈ newTrace (detailsBlock env m) s, isLabelOp "Client Name:" e.op = false) ∧
    (m.clientAddress = "" →
      ∀ e ∈ newTrace (detailsBlock env m) s, isLabelOp "Property Address:" e.op = false) ∧
    (m.inspectionDate = "" →
      ∀ e ∈ newTrace (detailsBlock env m) s, isLabelOp "Inspection Date:" e.op = false) ∧
    (m.inspectorName = "" →
      ∀ e ∈ newTrace (detailsBlock env m) s, isLabelOp "Inspector:" e.op = false) ∧
    (m.inspectorCredentials = "" →
      ∀ e ∈ newTrace (detailsBlock env m) s, isLabelOp "Credentials:" e.op = false) ∧
    ((m.attendance = "" → (tableData m).get? 0 = some ("Attendance", "N/A")) ∧
     (m.occupancy = "" → (tableData m).get? 1 = some ("Occupancy", "N/A")) ∧
     (m.buildingType = "" → (tableData m).get? 2 = some ("Type of Building", "N/A")) ∧
     (m.weatherCondition = "" → (tableData m).get? 3 = some ("Weather Condition", "N/A"))) ∧
    (∀ r ∈ tableData m, ∃ e ∈ newTrace (tableBlock m) s,
      opStr e.op = some r.2 ∧ opX e.op = some (margin + colWidth)) ∧
    (m.disclaimer = "" →
      (newTrace (disclaimerBlock env m) s).map (fun e => opStr e.op) =
        [none, some "General Disclaimer"]) := by
  refine ⟨?_, ?_, ?_, ?_, ?_, ?_, ⟨?_, ?_, ?_, ?_⟩, ?_, ?_⟩
  · intro hp he
    have htr : (headerBlock m s).trace = s.trace ++
        [⟨Op.text (strOr m.companyName "Inspection Company") (pageWidth / 2) s.yPos 20 true
            s.textColor Align.center, s.current, s.yPos, s.pageCount⟩,
         ⟨Op.text (strOr m.reportTitle "Home Defect Inspection Report") (pageWidth / 2)
            (s.yPos + 10 + 5) 16 true s.textColor Align.center,
          s.current, s.yPos + 10, s.pageCount⟩,
         ⟨Op.line margin (s.yPos + 10 + 15) (pageWidth - margin) (s.yPos + 10 + 15)
            (200, 200, 200) ((1 : ℚ) / 2), s.current, s.yPos + 10 + 15, s.pageCount⟩] := by
      unfold headerBlock addLine
      rw [hp, he]
      simp
    rw [newTrace_eq htr]
    rfl
  · intro habs e he
    obtain ⟨t, ht, hnone⟩ := detailsBlock_absent env m s "Client Name:" (Or.inl habs)
      (Or.inr (by decide)) (Or.inr (by decide)) (Or.inr (by decide)) (Or.inr (by decide))
    rw [newTrace_eq ht] at he
    exact hnone e he
  · intro habs e he
    obtain ⟨t, ht, hnone⟩ := detailsBlock_absent env m s "Property Address:"
      (Or.inr (by decide)) (Or.inl habs) (Or.inr (by decide)) (Or.inr (by decide))
      (Or.inr (by decide))
    rw [newTrace_eq ht] at he
    exact hnone e he
  · intro habs e he
    obtain ⟨t, ht, hnone⟩ := detailsBlock_absent env m s "Inspection Date:"
      (Or.inr (by decide)) (Or.inr (by decide)) (Or.inl habs) (Or.inr (by decide))
      (Or.inr (by decide))
    rw [newTrace_eq ht] at he
    exact hnone e he
  · intro habs e he
    obtain ⟨t, ht, hnone⟩ := detailsBlock_absent env m s "Inspector:"
      (Or.inr (by decide)) (Or.inr (by decide)) (Or.inr (by decide)) (Or.inl habs)
      (Or.inr (by decide))
    rw [newTrace_eq ht] at he
    exact hnone e he
  · intro habs e he
    obtain ⟨t, ht, hnone⟩ := detailsBlock_absent env m s "Credentials:"
      (Or.inr (by decide)) (Or.inr (by decide)) (Or.inr (by decide)) (Or.inr (by decide))
      (Or.inl habs)
    rw [newTrace_eq ht] at he
    exact hnone e he
  · intro habs
    simp [tableData, strOr, habs]
  · intro habs
    simp [tableData, strOr, habs]
  · intro habs
    simp [tableData, strOr, habs]
  · intro habs
    simp [tableData, strOr, habs]
  · intro r hr
    obtain ⟨_, t, ht, _, hvals⟩ := tableBlock_spec m hs
    obtain ⟨e, he, hprop⟩ := hvals r hr
    rw [newTrace_eq ht]
    exact ⟨e, he, hprop⟩
  · intro hd
    have htr : (disclaimerBlock env m s).trace = s.trace ++
        [⟨Op.rect margin (checkNewPage 20 s).2.yPos contentWidth 10 (240, 240, 240),
          (checkNewPage 20 s).2.current, (checkNewPage 20 s).2.yPos + 5,
          (checkNewPage 20 s).2.pageCount⟩,
         ⟨Op.text "General Disclaimer" (margin + 3) ((checkNewPage 20 s).2.yPos + 5 + 2) 12 true
            (30, 30, 30) Align.left,
          (checkNewPage 20 s).2.current, (checkNewPage 20 s).2.yPos + 5,
          (checkNewPage 20 s).2.pageCount⟩] := by
      unfold disclaimerBlock
      dsimp only
      rw [if_pos hd]
      exact addSectionHeader_trace _ s
    rw [newTrace_eq htr]
    rfl

/-! ## Witnesses and counterexamples (decidable evaluation of concrete runs) -/

attribute [local semireducible] Rat.add Rat.mul Rat.sub Rat.inv

/-- C4 witness: a concrete fitting write (cursor 20, 100 units needed) does
not break the page, and a concrete overflowing write (cursor 200) does,
resetting the cursor to the margin on a fresh page. -/
theorem c4_checkNewPage_witness :
    checkNewPage 100 initState = (false, initState) ∧
    checkNewPage 100 { initState with yPos := 200 } =
      (true, { initState with pageCount := 2, current := 2, yPos := margin }) :=
  ⟨(c4_checkNewPage 100 initState).2 (by norm_num [initState, margin, pageHeight]),
   (c4_checkNewPage 100 { initState with yPos := 200 }).1
     (by norm_num [initState, margin, pageHeight])⟩

/-- C6 witness: a 100x50 image in the fixed 170x80 box scales by 8/5 to
160x80, which fits the box and keeps the 2:1 aspect ratio. -/
theorem c6_imgScale_witness :
    0 < imgScaleFactor 170 80 100 50 ∧
    (100 : ℚ) * imgScaleFactor 170 80 100 50 ≤ 170 ∧
    (50 : ℚ) * imgScaleFactor 170 80 100 50 ≤ 80 ∧
    ((100 : ℚ) * imgScaleFactor 170 80 100 50) / ((50 : ℚ) * imgScaleFactor 170 80 100 50) =
      (100 : ℚ) / 50 ∧
    (imgScaleFactor 170 80 100 50 = (170 : ℚ) / 100 ∨
      imgScaleFactor 170 80 100 50 = (80 : ℚ) / 50) ∧
    1 < imgScaleFactor contentWidth 80 1 1 :=
  c6_imgScale 100 50 170 80 (by norm_num) (by norm_num) (by norm_num) (by norm_num)

/-- C8 witness: the 100x50 image scales to 160x80; at cursor 20 it fits
(drawn in place, cursor advances to 105), and at cursor 200 it forces a page
break with a reprinted `(continued)` heading before the image. -/
theorem c8_imagePageFit_witness :
    defectImage 0 goodDefect initState =
      { initState with
          yPos := initState.yPos + 50 * imgScaleFactor contentWidth 80 100 50 + 5,
          trace := initState.trace ++ [⟨Op.image "JPEG" margin initState.yPos
            (100 * imgScaleFactor contentWidth 80 100 50)
            (50 * imgScaleFactor contentWidth 80 100 50),
            initState.current, initState.yPos, initState.pageCount⟩] } ∧
    defectImage 0 goodDefect { initState with yPos := 200 } =
      { initState with
          pageCount := 2, current := 2, fontSize := 11, bold := true, textColor := (0, 0, 0),
          yPos := margin + 8 + 50 * imgScaleFactor contentWidth 80 100 50 + 5,
          trace := initState.trace ++
            [⟨Op.text ("Defect #" ++ toString (0 + 1) ++ ": " ++ goodDefect.defectType ++
                " (continued)") margin margin 11 true (44, 82, 130) Align.left, 2, margin, 2⟩,
             ⟨Op.image "JPEG" margin (margin + 8)
                (100 * imgScaleFactor contentWidth 80 100 50)
                (50 * imgScaleFactor contentWidth 80 100 50), 2, margin + 8, 2⟩] } :=
  ⟨(c8_imagePageFit 0 goodDefect initState 100 50 rfl).2
    (by norm_num [initState, imgScaleFactor, contentWidth, pageWidth, margin, pageHeight]),
   (c8_imagePageFit 0 goodDefect { initState with yPos := 200 } 100 50 rfl).1
    (by norm_num [initState, imgScaleFactor, contentWidth, pageWidth, margin, pageHeight])⟩

set_option maxRecDepth 100000 in
/-- C3 witness: a run over a bad-image defect followed by a good one.  The
catch branch is exercised at a concrete state, both defect headings appear
in the produced trace, and page 2 of the 2-page document carries its
`Page 2 of 2` stamp. -/
theorem c3_badImageGraceful_witness :
    defectImage 0 badDefect initState =
      { initState with
          fontSize := 10, textColor := (0, 0, 0), yPos := initState.yPos + 8,
          trace := initState.trace ++ [⟨Op.text "[Image could not be loaded]" margin
            initState.yPos 10 initState.bold (150, 0, 0) Align.left, initState.current,
            initState.yPos, initState.pageCount⟩] } ∧
    (∃ e ∈ (generate env0 emptyMeta [badDefect, goodDefect]).trace,
      e.op = Op.text ("Defect #" ++ toString (0 + 1) ++ ": " ++ badDefect.defectType)
        margin e.yAt 11 true (44, 82, 130) Align.left) ∧
    (∃ e ∈ (generate env0 emptyMeta [badDefect, goodDefect]).trace,
      e.op = Op.text ("Defect #" ++ toString (1 + 1) ++ ": " ++ goodDefect.defectType)
        margin e.yAt 11 true (44, 82, 130) Align.left) ∧
    (∃ e ∈ (generate env0 emptyMeta [badDefect, goodDefect]).trace,
      e.op = Op.text (pageStampStr 2 (generate env0 emptyMeta [badDefect, goodDefect]).pageCount)
        (pageWidth / 2) (pageHeight - 10) 8 false (150, 150, 150) Align.center ∧ e.page = 2) :=
  ⟨(c3_badImageGraceful env0).1 0 badDefect initState rfl,
   (c3_badImageGraceful env0).2.1 emptyMeta [badDefect, goodDefect] (by decide) 0 badDefect rfl,
   (c3_badImageGraceful env0).2.1 emptyMeta [badDefect, goodDefect] (by decide) 1 goodDefect rfl,
   ((c3_badImageGraceful env0).2.2 emptyMeta [badDefect, goodDefect] (by decide) 2 (by norm_num)
     (by decide)).imp (fun e h => ⟨h.1, h.2⟩)⟩

/-- C7 witness: with one defect the section's first draw operation lands on
page 2 while all prior content is on page 1; with no defects the state is
returned untouched. -/
theorem c7_defectsFreshPage_witness :
    defectsSection env0 [] (bodyState env0 emptyMeta) = bodyState env0 emptyMeta ∧
    ∃ f rest, newTrace (defectsSection env0 [goodDefect]) (bodyState env0 emptyMeta) =
        f :: rest ∧
      f.page = (bodyState env0 emptyMeta).pageCount + 1 ∧
      ∀ e ∈ (bodyState env0 emptyMeta).trace, e.page < f.page :=
  ⟨(c7_defectsFreshPage env0 emptyMeta [] (by decide)).1 rfl,
   (c7_defectsFreshPage env0 emptyMeta [goodDefect] (by decide)).2 (by decide)⟩

set_option maxRecDepth 200000 in
/-- C1 counterexample: the source reads `new Date().toLocaleString()` inside
the footer loop, once per page.  In a run whose two reads straddle a second
boundary, page 1 and page 2 of the same document carry different literal
timestamp strings, refuting "the same literal timestamp string on every page
(captured once at finalize time, not per page)". -/
theorem c1_counterexample :
    (pageOps (generate env0 emptyMeta [goodDefect]) 1).filter isTsPos =
      [Op.text "Report generated: 4/1/2024, 10:15:59 AM" (pageWidth / 2) (pageHeight - 6) 8
        false (150, 150, 150) Align.center] ∧
    (pageOps (generate env0 emptyMeta [goodDefect]) 2).filter isTsPos =
      [Op.text "Report generated: 4/1/2024, 10:16:00 AM" (pageWidth / 2) (pageHeight - 6) 8
        false (150, 150, 150) Align.center] ∧
    ("Report generated: 4/1/2024, 10:15:59 AM" : String) ≠
      "Report generated: 4/1/2024, 10:16:00 AM" := by
  refine ⟨by decide, by decide, by decide⟩

set_option maxRecDepth 200000 in
/-- C1 witness for the amended claim: in the concrete two-page run, page 2
carries exactly one `Page 2 of N` stamp (N the run's page count) and the
timestamp of the footer loop's second clock read. -/
theorem c1_amended_witness :
    (pageOps (generate env0 emptyMeta [goodDefect]) 2).filter isPageNumPos =
      [Op.text (pageStampStr 2 (generate env0 emptyMeta [goodDefect]).pageCount)
        (pageWidth / 2) (pageHeight - 10) 8 false (150, 150, 150) Align.center] ∧
    (pageOps (generate env0 emptyMeta [goodDefect]) 2).filter isTsPos =
      [Op.text ("Report generated: " ++ env0.footClock (2 - 1)) (pageWidth / 2)
        (pageHeight - 6) 8 false (150, 150, 150) Align.center] :=
  c1_amended env0 emptyMeta [goodDefect] (by decide) 2 (by norm_num) (by decide)

set_option maxRecDepth 400000 in
/-- C5 counterexample: with a client address that wraps into 50 lines, the
Property & Client Details section (whose writes are not guarded by
`checkNewPage`) pushes the cursor to 319, and the `Inspection Date:` label
is then written with the cursor far beyond `pageHeight - margin = 277`,
refuting the blanket "cursor in `[margin, pageHeight - margin]` immediately
after each write". -/
theorem c5_counterexample :
    (∃ e ∈ (generate env5 meta5 []).trace,
      e.op = Op.text "Inspection Date:" margin e.yAt 10 true (0, 0, 0) Align.left ∧
      pageHeight - margin < e.yAt) ∧
    ((generate env5 meta5 []).trace.filter
      (fun e => decide (pageHeight - margin < e.yAt))).length = 2 := by
  refine ⟨⟨⟨Op.text "Inspection Date:" margin 319 10 true (0, 0, 0) Align.left, 1, 319, 1⟩,
    by decide, by decide, by decide⟩, by decide⟩

set_option maxRecDepth 200000 in
/-- C5 witness for the amended claim: in the concrete run with one defect,
the recorded page counts are non-decreasing along the whole trace and every
write of the guarded sections stays inside the margins. -/
theorem c5_amended_witness :
    ((generate env0 emptyMeta [goodDefect]).trace.map (fun e => e.pagesAt)).Pairwise (· ≤ ·) ∧
    (∀ e ∈ newTrace (tableBlock emptyMeta)
        (detailsBlock env0 emptyMeta (headerBlock emptyMeta initState)),
      margin ≤ e.yAt ∧ e.yAt ≤ pageHeight - margin) ∧
    (∀ e ∈ newTrace (disclaimerBlock env0 emptyMeta)
        (tableBlock emptyMeta (detailsBlock env0 emptyMeta (headerBlock emptyMeta initState))),
      margin ≤ e.yAt ∧ e.yAt ≤ pageHeight - margin) ∧
    (∀ e ∈ newTrace (defectsSection env0 [goodDefect]) (bodyState env0 emptyMeta),
      margin ≤ e.yAt ∧ e.yAt ≤ pageHeight - margin) :=
  c5_amended env0 emptyMeta [goodDefect] (by decide)

set_option maxRecDepth 200000 in
/-- C2 counterexample: with every metadata field absent the very first draw
operation of the run renders the substitute text `'Inspection Company'` for
the absent company name - the field is neither omitted nor rendered as
`'N/A'`, refuting "no other substitute text is emitted for an absent
field". -/
theorem c2_counterexample :
    emptyMeta.companyName = "" ∧
    ((generate env0 emptyMeta []).trace.map (fun e => opStr e.op)).head? =
      some (some "Inspection Company") ∧
    ("Inspection Company" : String) ≠ "N/A" ∧
    ("Inspection Company" : String) ≠ "" := by
  refine ⟨rfl, by decide, by decide, by decide⟩

/-- C2 witness for the amended claim: at the all-absent metadata and the
fresh document state, the header emits exactly the defaulted company name,
defaulted title and rule; no detail label is written for any absent pair;
the table values all render `'N/A'` and are written at the value column; the
disclaimer section emits only its header banner and title. -/
theorem c2_amended_witness :
    ((newTrace (headerBlock emptyMeta) initState).map (fun e => opStr e.op) =
      [some "Inspection Company", some "Home Defect Inspection Report", none]) ∧
    (∀ e ∈ newTrace (detailsBlock env0 emptyMeta) initState,
      isLabelOp "Client Name:" e.op = false) ∧
    (tableData emptyMeta).get? 0 = some ("Attendance", "N/A") ∧
    (∀ r ∈ tableData emptyMeta, ∃ e ∈ newTrace (tableBlock emptyMeta) initState,
      opStr e.op = some r.2 ∧ opX e.op = some (margin + colWidth)) ∧
    ((newTrace (disclaimerBlock env0 emptyMeta) initState).map (fun e => opStr e.op) =
      [none, some "General Disclaimer"]) :=
  ⟨(c2_amended env0 emptyMeta initState inv_initState).1 rfl rfl,
   (c2_amended env0 emptyMeta initState inv_initState).2.1 rfl,
   (c2_amended env0 emptyMeta initState inv_initState).2.2.2.2.2.2.1.1 rfl,
   (c2_amended env0 emptyMeta initState inv_initState).2.2.2.2.2.2.2.1,
   (c2_amended env0 emptyMeta initState inv_initState).2.2.2.2.2.2.2.2 rfl⟩

set_option maxRecDepth 200000 in
/-- C10 witness: the concrete run over a decodable 100x50 image embeds it as
a 160x80 image op on page 2 - tagged `'JPEG'`. -/
theorem c10_alwaysJpeg_witness :
    (⟨Op.image "JPEG" margin 45 160 80, 2, 45, 2⟩ : Emit) ∈
      (generate env0 emptyMeta [goodDefect]).trace ∧
    ("JPEG" : String) = "JPEG" :=
  ⟨by decide,
   c10_alwaysJpeg env0 emptyMeta [goodDefect] (by decide)
     ⟨Op.image "JPEG" margin 45 160 80, 2, 45, 2⟩ (by decide) "JPEG" margin 45 160 80 rfl⟩

end DefectPro
